import Mathlib

/-!
# psx-gpio-controller: seqlock buffer, button poller and status LED

A shallow embedding of `src/psx_shared.h` (the sequence-counter buffer shared
between the two cores), of `poll_buttons` / `main` from
`src/psx_gpio_simulator.c` and of the status LED of `src/psx_led_status.h`,
followed by the properties proved about them.

Conventions.  `uint8_t` and `unsigned int` values are natural numbers; the
32-bit counter `seq` is reduced modulo `2^32` at each increment.  The record
`PSXInputState` is declared in `controller_simulator.h`, which is not among the
sources; it is modelled with the eight `uint8_t` fields that the sources
use.  The button masks `PSX_GAMEPAD_*` come from `psx_definitions.h`, also
absent, and are taken as parameters.
-/

namespace PSX

/-! ## Data model and the shared buffer (`psx_shared.h`) -/

/-- Modelled from the spec: the record `PSXInputState` is declared in
`controller_simulator.h`, which is missing; it has the eight 8-bit fields of the
spec's InputSnapshot, under the names `psx_gpio_simulator.c` uses for them. -/
structure PSXInputState where
  buttons1 : Nat
  buttons2 : Nat
  lx : Nat
  ly : Nat
  rx : Nat
  ry : Nat
  l2 : Nat
  r2 : Nat
deriving DecidableEq

/-- Number of bytes moved by `memcpy(.., sizeof(b->data))` in the model. -/
def PSXInputState.size : Nat := 8

/-- Byte `k` of a snapshot (the order of the fields inside the record is a
modelling choice; nothing below depends on it). -/
def PSXInputState.byte (s : PSXInputState) (k : Nat) : Nat :=
  match k with
  | 0 => s.buttons1
  | 1 => s.buttons2
  | 2 => s.lx
  | 3 => s.ly
  | 4 => s.rx
  | 5 => s.ry
  | 6 => s.l2
  | 7 => s.r2
  | _ => 0

/-- Store `v` into byte `k` of a snapshot. -/
def PSXInputState.setByte (s : PSXInputState) (k : Nat) (v : Nat) : PSXInputState :=
  match k with
  | 0 => { s with buttons1 := v }
  | 1 => { s with buttons2 := v }
  | 2 => { s with lx := v }
  | 3 => { s with ly := v }
  | 4 => { s with rx := v }
  | 5 => { s with ry := v }
  | 6 => { s with l2 := v }
  | 7 => { s with r2 := v }
  | _ => s

/-- One byte step of `memcpy(dst, src, ..)`: byte `k` of `src` goes to `dst`. -/
def memcpy_byte (dst src : PSXInputState) (k : Nat) : PSXInputState :=
  dst.setByte k (src.byte k)

/-- The call `memcpy(dst, src, sizeof(PSXInputState))`, byte after byte. -/
def memcpy (dst src : PSXInputState) : PSXInputState :=
  (List.range PSXInputState.size).foldl (fun d k => memcpy_byte d src k) dst

/-- The call `memset(&data, c, sizeof(data))`: every byte becomes `c % 256`. -/
def memset (s : PSXInputState) (c : Nat) : PSXInputState :=
  (List.range PSXInputState.size).foldl (fun d k => d.setByte k (c % 256)) s

/-- The record `PSXSharedBuffer`: the sequence counter and the snapshot. -/
structure PSXSharedBuffer where
  seq : Nat
  data : PSXInputState
deriving DecidableEq

/-- The operation `atomic_fetch_add(&b->seq, 1u)` on a 32-bit `atomic_uint`. -/
def atomic_fetch_add_seq (b : PSXSharedBuffer) : PSXSharedBuffer :=
  { b with seq := (b.seq + 1) % 2 ^ 32 }

/-- The function `psx_shared_init`: `seq` becomes 0 and the data bytes 0xFF. -/
def psx_shared_init (b : PSXSharedBuffer) : PSXSharedBuffer :=
  { seq := 0, data := memset b.data 0xFF }

/-- The buffer after the first increment of `psx_shared_write`. -/
def psx_shared_write_begin (b : PSXSharedBuffer) : PSXSharedBuffer :=
  atomic_fetch_add_seq b

/-- The buffer after the `memcpy` of `psx_shared_write`. -/
def psx_shared_write_copied (b : PSXSharedBuffer) (src : PSXInputState) : PSXSharedBuffer :=
  let b1 := psx_shared_write_begin b
  { b1 with data := memcpy b1.data src }

/-- The function `psx_shared_write`, run without interruption: increment,
copy, increment. -/
def psx_shared_write (b : PSXSharedBuffer) (src : PSXInputState) : PSXSharedBuffer :=
  atomic_fetch_add_seq (psx_shared_write_copied b src)

/-- The function `psx_shared_read` run while no writer is active.  The `for (;;)`
loop is bounded by `fuel` iterations; `none` means the loop has not returned
within them.  The buffer is returned next to `dst` so that its being left
alone is visible. -/
def psx_shared_read : Nat → PSXSharedBuffer → PSXInputState →
    Option (PSXSharedBuffer × PSXInputState)
  | 0, _, _ => none
  | fuel + 1, b, dst =>
    let v1 := b.seq
    if v1 &&& 1 ≠ 0 then psx_shared_read fuel b dst
    else
      let dst1 := memcpy dst b.data
      let v2 := b.seq
      if v1 = v2 then some (b, dst1) else psx_shared_read fuel b dst1

/-- A completed call on the buffer, as seen by a sequential caller. -/
inductive Call where
  | write (src : PSXInputState)
  | read (dst : PSXInputState)

/-- Run completed calls one after the other.  A read call is given `fuel`
iterations of its loop; `none` means it did not return. -/
def runCalls (fuel : Nat) : List Call → PSXSharedBuffer → Option PSXSharedBuffer
  | [], b => some b
  | Call.write src :: cs, b => runCalls fuel cs (psx_shared_write b src)
  | Call.read dst :: cs, b =>
    match psx_shared_read fuel b dst with
    | none => none
    | some (b1, _) => runCalls fuel cs b1

/-! ## One writer and one reader, interleaved

The two cores are modelled as two program counters over one memory.  Each
step of a core is one access to the shared buffer: an atomic increment or load
of `seq`, or the copy of one byte by `memcpy`.  A schedule is the list of the
cores that move, in order.  Memory is sequentially consistent in this model.
The fields `incs`, `sent`, `c1` and `c2` only record history and are read by no
step. -/

/-- Where the writer core stands: between two calls, or inside
`psx_shared_write` after the first increment with `k` bytes of `src` copied. -/
inductive WriterPc where
  | idle
  | copy (k : Nat) (src : PSXInputState)
deriving DecidableEq

/-- Where the reader core stands inside `psx_shared_read`: about to load `v1`,
past the parity test with `k` bytes copied, or returned. -/
inductive ReaderPc where
  | start
  | copy (k : Nat)
  | done
deriving DecidableEq

/-- The two cores and the buffer they share. -/
structure Conc where
  b : PSXSharedBuffer
  wpc : WriterPc
  rpc : ReaderPc
  /-- The local `v1` of the reader. -/
  v1 : Nat
  /-- The destination `*dst` of the reader. -/
  dst : PSXInputState
  /-- History: how many times `seq` has been incremented. -/
  incs : Nat
  /-- History: the initial contents, then the snapshot of each write begun. -/
  sent : List PSXInputState
  /-- History: `incs` at the load of `v1`. -/
  c1 : Nat
  /-- History: `incs` at the load of `v2` that made the read return. -/
  c2 : Nat

/-- The core that makes the next step; a writer that is between calls starts
`psx_shared_write(b, src)` with the snapshot given. -/
inductive Core where
  | writer (src : PSXInputState)
  | reader
deriving DecidableEq

/-- One step of the writer core. -/
def writerStep (src : PSXInputState) (s : Conc) : Conc :=
  match s.wpc with
  | WriterPc.idle =>
    { s with b := atomic_fetch_add_seq s.b, wpc := WriterPc.copy 0 src,
             incs := s.incs + 1, sent := s.sent ++ [src] }
  | WriterPc.copy k src0 =>
    if k < PSXInputState.size then
      { s with b := { s.b with data := memcpy_byte s.b.data src0 k },
               wpc := WriterPc.copy (k + 1) src0 }
    else
      { s with b := atomic_fetch_add_seq s.b, wpc := WriterPc.idle, incs := s.incs + 1 }

/-- One step of the reader core. -/
def readerStep (s : Conc) : Conc :=
  match s.rpc with
  | ReaderPc.start =>
    let v1 := s.b.seq
    if v1 &&& 1 ≠ 0 then { s with v1 := v1, c1 := s.incs }
    else { s with v1 := v1, c1 := s.incs, rpc := ReaderPc.copy 0 }
  | ReaderPc.copy k =>
    if k < PSXInputState.size then
      { s with dst := memcpy_byte s.dst s.b.data k, rpc := ReaderPc.copy (k + 1) }
    else
      let v2 := s.b.seq
      if s.v1 = v2 then { s with rpc := ReaderPc.done, c2 := s.incs }
      else { s with rpc := ReaderPc.start }
  | ReaderPc.done => { s with rpc := ReaderPc.start }

/-- One step of the machine. -/
def step (s : Conc) (c : Core) : Conc :=
  match c with
  | Core.writer src => writerStep src s
  | Core.reader => readerStep s

/-- Run a schedule. -/
def run (sched : List Core) (s : Conc) : Conc := sched.foldl step s

/-- The machine after `psx_shared_init`, with both cores before their first
call; `d0` is what the reader's destination holds. -/
def Conc.init (b0 : PSXSharedBuffer) (d0 : PSXInputState) : Conc :=
  { b := psx_shared_init b0, wpc := WriterPc.idle, rpc := ReaderPc.start, v1 := 0, dst := d0,
    incs := 0, sent := [(psx_shared_init b0).data], c1 := 0, c2 := 0 }

/-! ## The button poller (`psx_gpio_simulator.c`) -/

/-- The fields of `PSXInputState` that the poller stores into. -/
inductive Field where
  | buttons1 | buttons2 | lx | ly | rx | ry | l2 | r2
deriving DecidableEq

/-- The assignment `state.f = v`. -/
def PSXInputState.store (s : PSXInputState) (f : Field) (v : Nat) : PSXInputState :=
  match f with
  | Field.buttons1 => { s with buttons1 := v }
  | Field.buttons2 => { s with buttons2 := v }
  | Field.lx => { s with lx := v }
  | Field.ly => { s with ly := v }
  | Field.rx => { s with rx := v }
  | Field.ry => { s with ry := v }
  | Field.l2 => { s with l2 := v }
  | Field.r2 => { s with r2 := v }

/-- The button masks of `psx_definitions.h` (not among the sources), taken as
parameters. -/
structure Masks where
  PSX_GAMEPAD_CIRCLE : Nat
  PSX_GAMEPAD_CROSS : Nat
  PSX_GAMEPAD_TRIANGLE : Nat
  PSX_GAMEPAD_SQUARE : Nat
  PSX_GAMEPAD_L1 : Nat
  PSX_GAMEPAD_R1 : Nat
  PSX_GAMEPAD_L2 : Nat
  PSX_GAMEPAD_R2 : Nat
  PSX_GAMEPAD_DPAD_UP : Nat
  PSX_GAMEPAD_DPAD_DOWN : Nat
  PSX_GAMEPAD_DPAD_LEFT : Nat
  PSX_GAMEPAD_DPAD_RIGHT : Nat
  PSX_GAMEPAD_START : Nat
  PSX_GAMEPAD_SELECT : Nat

/-- The mask that `poll_buttons` uses for button index `i` (the fixed
assignment 0: CIRCLE .. 13: SELECT of the source). -/
def Masks.ofIndex (m : Masks) (i : Nat) : Nat :=
  match i with
  | 0 => m.PSX_GAMEPAD_CIRCLE
  | 1 => m.PSX_GAMEPAD_CROSS
  | 2 => m.PSX_GAMEPAD_TRIANGLE
  | 3 => m.PSX_GAMEPAD_SQUARE
  | 4 => m.PSX_GAMEPAD_L1
  | 5 => m.PSX_GAMEPAD_R1
  | 6 => m.PSX_GAMEPAD_L2
  | 7 => m.PSX_GAMEPAD_R2
  | 8 => m.PSX_GAMEPAD_DPAD_UP
  | 9 => m.PSX_GAMEPAD_DPAD_DOWN
  | 10 => m.PSX_GAMEPAD_DPAD_LEFT
  | 11 => m.PSX_GAMEPAD_DPAD_RIGHT
  | 12 => m.PSX_GAMEPAD_START
  | 13 => m.PSX_GAMEPAD_SELECT
  | _ => 0

/-- The masks that act on `buttons2`, in index order 0..7. -/
def Masks.group2 (m : Masks) : List Nat :=
  [m.PSX_GAMEPAD_CIRCLE, m.PSX_GAMEPAD_CROSS, m.PSX_GAMEPAD_TRIANGLE, m.PSX_GAMEPAD_SQUARE,
   m.PSX_GAMEPAD_L1, m.PSX_GAMEPAD_R1, m.PSX_GAMEPAD_L2, m.PSX_GAMEPAD_R2]

/-- The masks that act on `buttons1`, in index order 8..13. -/
def Masks.group1 (m : Masks) : List Nat :=
  [m.PSX_GAMEPAD_DPAD_UP, m.PSX_GAMEPAD_DPAD_DOWN, m.PSX_GAMEPAD_DPAD_LEFT,
   m.PSX_GAMEPAD_DPAD_RIGHT, m.PSX_GAMEPAD_START, m.PSX_GAMEPAD_SELECT]

/-- A mask that is one single bit of a byte. -/
def SingleBit (m : Nat) : Prop := m ∈ [1, 2, 4, 8, 16, 32, 64, 128]

instance (m : Nat) : Decidable (SingleBit m) := by
  unfold SingleBit; infer_instance

/-- Modelled from the spec: `psx_definitions.h` is missing; the data model gives
each byte "one bit per" button, so every mask is a single bit of a byte and
the masks that share a byte are pairwise distinct. -/
def Masks.WellFormed (m : Masks) : Prop :=
  (∀ x ∈ m.group2, SingleBit x) ∧ (∀ x ∈ m.group1, SingleBit x) ∧
  m.group2.Nodup ∧ m.group1.Nodup

instance (m : Masks) : Decidable m.WellFormed := by
  unfold Masks.WellFormed; infer_instance

/-- The statement `b &= ~MASK` on a `uint8_t`: the operands are promoted to
`int`, and the result is truncated back to eight bits. -/
def clear_mask (b mask : Nat) : Nat := b &&& (0xFF ^^^ (mask % 256))

/-- The bit of `mask` reads as pressed in an active-low byte. -/
def Pressed (byte mask : Nat) : Prop := byte &&& mask = 0

/-- The bit of `mask` reads as released in an active-low byte. -/
def Released (byte mask : Nat) : Prop := byte &&& mask = mask

instance (byte mask : Nat) : Decidable (Pressed byte mask) := by
  unfold Pressed; infer_instance

instance (byte mask : Nat) : Decidable (Released byte mask) := by
  unfold Released; infer_instance

/-- The file-scope configuration of the poller: `btn_count`, the table
`btn_pins` (index to GPIO number) and the masks. -/
structure Board where
  btn_count : Int
  btn_pins : Nat → Nat
  masks : Masks

/-- The input lines during one poll cycle.  The function `poll_buttons` has
sixteen `gpio_get` expressions; `g k pin` is the level on GPIO `pin` at the
moment the `k`-th of them, in program order from 0, is evaluated (`true` is
level 1).  A line may change between two of them. -/
abbrev Lines := Nat → Nat → Bool

/-- The memory of the program: the static `state` handed to the responder by
`psx_device_init(0, &state, ..)` and the buffer `g_psx_shared` declared in
`psx_shared.h`. -/
structure Memory where
  state : PSXInputState
  g_psx_shared : PSXSharedBuffer

/-- What a poll cycle does to the outside: reads of a line and stores into a
field of `state`. -/
inductive Event where
  | gpio_get (index pin : Nat) (level : Bool)
  | store (f : Field) (v : Nat)
deriving DecidableEq

/-- The running poll cycle: the memory and the events so far in program
order. -/
structure Exec where
  mem : Memory
  trace : List Event

/-- The condition `btn_count > i && gpio_get(btn_pins[i]) == 0` at the `k`-th
`gpio_get` expression; the line is read only when the left operand holds. -/
def sample (c : Board) (g : Lines) (k i : Nat) (x : Exec) : Bool × Exec :=
  if c.btn_count > (i : Int) then
    let pin := c.btn_pins i
    let level := g k pin
    (level == false, { x with trace := x.trace ++ [Event.gpio_get i pin level] })
  else (false, x)

/-- The assignment `state.f = v` as a step of the cycle. -/
def store (f : Field) (v : Nat) (x : Exec) : Exec :=
  { mem := { x.mem with state := x.mem.state.store f v },
    trace := x.trace ++ [Event.store f v] }

/-- The statement `if (cond) b &= ~MASK;`. -/
def clear_if (cond : Bool) (b mask : Nat) : Nat :=
  if cond then clear_mask b mask else b

/-- The statement `if (cond) state.f = 0xFF; else state.f = 0x00;`. -/
def store_trigger (cond : Bool) (f : Field) (x : Exec) : Exec :=
  if cond then store f 0xFF x else store f 0x00 x

/-- The function `poll_buttons`, statement by statement. -/
def poll_buttons (c : Board) (g : Lines) (m : Memory) : Exec :=
  let x : Exec := { mem := m, trace := [] }
  let b1 : Nat := 0xFF
  let b2 : Nat := 0xFF
  -- face buttons
  let t := sample c g 0 0 x
  let b2 := clear_if t.1 b2 c.masks.PSX_GAMEPAD_CIRCLE
  let t := sample c g 1 1 t.2
  let b2 := clear_if t.1 b2 c.masks.PSX_GAMEPAD_CROSS
  let t := sample c g 2 2 t.2
  let b2 := clear_if t.1 b2 c.masks.PSX_GAMEPAD_TRIANGLE
  let t := sample c g 3 3 t.2
  let b2 := clear_if t.1 b2 c.masks.PSX_GAMEPAD_SQUARE
  -- shoulder buttons
  let t := sample c g 4 4 t.2
  let b2 := clear_if t.1 b2 c.masks.PSX_GAMEPAD_L1
  let t := sample c g 5 5 t.2
  let b2 := clear_if t.1 b2 c.masks.PSX_GAMEPAD_R1
  -- triggers
  let t := sample c g 6 6 t.2
  let x := store_trigger t.1 Field.l2 t.2
  let t := sample c g 7 7 x
  let x := store_trigger t.1 Field.r2 t.2
  let t := sample c g 8 6 x
  let b2 := clear_if t.1 b2 c.masks.PSX_GAMEPAD_L2
  let t := sample c g 9 7 t.2
  let b2 := clear_if t.1 b2 c.masks.PSX_GAMEPAD_R2
  -- d-pad
  let t := sample c g 10 8 t.2
  let b1 := clear_if t.1 b1 c.masks.PSX_GAMEPAD_DPAD_UP
  let t := sample c g 11 9 t.2
  let b1 := clear_if t.1 b1 c.masks.PSX_GAMEPAD_DPAD_DOWN
  let t := sample c g 12 10 t.2
  let b1 := clear_if t.1 b1 c.masks.PSX_GAMEPAD_DPAD_LEFT
  let t := sample c g 13 11 t.2
  let b1 := clear_if t.1 b1 c.masks.PSX_GAMEPAD_DPAD_RIGHT
  -- start / select
  let t := sample c g 14 12 t.2
  let b1 := clear_if t.1 b1 c.masks.PSX_GAMEPAD_START
  let t := sample c g 15 13 t.2
  let b1 := clear_if t.1 b1 c.masks.PSX_GAMEPAD_SELECT
  let x := store Field.buttons1 b1 t.2
  let x := store Field.buttons2 b2 x
  let x := store Field.lx 0x80 x
  let x := store Field.ly 0x80 x
  let x := store Field.rx 0x80 x
  let x := store Field.ry 0x80 x
  x

/-- The constant `NUM_BUTTON_PINS`. -/
def NUM_BUTTON_PINS : Nat := 14

/-- The pin table that `main` fills in (index to GPIO number); slots that
`main` does not assign keep the zero of static storage. -/
def main_btn_pins (i : Nat) : Nat :=
  match i with
  | 0 => 22 | 1 => 21 | 2 => 20 | 3 => 19
  | 4 => 14 | 5 => 12 | 6 => 13 | 7 => 11
  | 8 => 18 | 9 => 17 | 10 => 16 | 11 => 15
  | 12 => 26 | 13 => 27
  | _ => 0

/-- The configuration that `main` sets up, for given masks. -/
def main_board (masks : Masks) : Board :=
  { btn_count := NUM_BUTTON_PINS, btn_pins := main_btn_pins, masks := masks }

/-- The stores of `main` into `state` before the first cycle. -/
def main_init_state (s : PSXInputState) : PSXInputState :=
  let s := s.store Field.buttons1 0xFF
  let s := s.store Field.buttons2 0xFF
  let s := s.store Field.ry 0x80
  let s := s.store Field.rx s.ry
  let s := s.store Field.ly s.rx
  let s := s.store Field.lx s.ly
  let s := s.store Field.r2 0x00
  let s := s.store Field.l2 s.r2
  s

/-- The loop `while (true) { poll_buttons(); sleep_ms(1); }` of `main` run for
the cycles whose line levels are listed; the result is the memory after the
last of them. -/
def main_loop (c : Board) : List Lines → Memory → Memory
  | [], m => m
  | g :: gs, m => main_loop c gs (poll_buttons c g m).mem

/-- The indices of the lines read in a trace, in program order. -/
def readIndices : List Event → List Nat
  | [] => []
  | Event.gpio_get i _ _ :: es => i :: readIndices es
  | Event.store _ _ :: es => readIndices es

/-- The stores of a trace, in program order. -/
def storesOf : List Event → List (Field × Nat)
  | [] => []
  | Event.gpio_get _ _ _ :: es => storesOf es
  | Event.store f v :: es => (f, v) :: storesOf es

/-- A mask assignment in the layout of the PlayStation pad report, used as a
concrete instance. -/
def padMasks : Masks :=
  { PSX_GAMEPAD_CIRCLE := 0x20, PSX_GAMEPAD_CROSS := 0x40, PSX_GAMEPAD_TRIANGLE := 0x10,
    PSX_GAMEPAD_SQUARE := 0x80, PSX_GAMEPAD_L1 := 0x04, PSX_GAMEPAD_R1 := 0x08,
    PSX_GAMEPAD_L2 := 0x01, PSX_GAMEPAD_R2 := 0x02, PSX_GAMEPAD_DPAD_UP := 0x10,
    PSX_GAMEPAD_DPAD_DOWN := 0x40, PSX_GAMEPAD_DPAD_LEFT := 0x80,
    PSX_GAMEPAD_DPAD_RIGHT := 0x20, PSX_GAMEPAD_START := 0x08, PSX_GAMEPAD_SELECT := 0x01 }

/-- Lines held at one level per pin for the whole cycle. -/
def constLines (lv : Nat → Bool) : Lines := fun _ pin => lv pin

/-! ## The poll cycle in closed form -/

/-- The value of `btn_count > i && gpio_get(btn_pins[i]) == 0` at the `k`-th
`gpio_get` expression. -/
def pressedAt (c : Board) (g : Lines) (k i : Nat) : Bool :=
  decide (c.btn_count > (i : Int)) && !(g k (c.btn_pins i))

/-- The events of that condition: one read when index `i` is configured. -/
def readEvent (c : Board) (g : Lines) (k i : Nat) : List Event :=
  if c.btn_count > (i : Int) then [Event.gpio_get i (c.btn_pins i) (g k (c.btn_pins i))] else []

/-- The local `b2` at the end of `poll_buttons`. -/
def polled_b2 (c : Board) (g : Lines) : Nat :=
  clear_if (pressedAt c g 9 7)
    (clear_if (pressedAt c g 8 6)
      (clear_if (pressedAt c g 5 5)
        (clear_if (pressedAt c g 4 4)
          (clear_if (pressedAt c g 3 3)
            (clear_if (pressedAt c g 2 2)
              (clear_if (pressedAt c g 1 1)
                (clear_if (pressedAt c g 0 0) 0xFF c.masks.PSX_GAMEPAD_CIRCLE)
                c.masks.PSX_GAMEPAD_CROSS)
              c.masks.PSX_GAMEPAD_TRIANGLE)
            c.masks.PSX_GAMEPAD_SQUARE)
          c.masks.PSX_GAMEPAD_L1)
        c.masks.PSX_GAMEPAD_R1)
      c.masks.PSX_GAMEPAD_L2)
    c.masks.PSX_GAMEPAD_R2

/-- The local `b1` at the end of `poll_buttons`. -/
def polled_b1 (c : Board) (g : Lines) : Nat :=
  clear_if (pressedAt c g 15 13)
    (clear_if (pressedAt c g 14 12)
      (clear_if (pressedAt c g 13 11)
        (clear_if (pressedAt c g 12 10)
          (clear_if (pressedAt c g 11 9)
            (clear_if (pressedAt c g 10 8) 0xFF c.masks.PSX_GAMEPAD_DPAD_UP)
            c.masks.PSX_GAMEPAD_DPAD_DOWN)
          c.masks.PSX_GAMEPAD_DPAD_LEFT)
        c.masks.PSX_GAMEPAD_DPAD_RIGHT)
      c.masks.PSX_GAMEPAD_START)
    c.masks.PSX_GAMEPAD_SELECT

/-- The value stored by `if (cond) state.f = 0xFF; else state.f = 0x00;`. -/
def triggerValue (cond : Bool) : Nat := if cond then 0xFF else 0x00

/-- The `gpio_get` expression whose result decides the digital bit of button
index `i`: indices 6 and 7 are read a first time for `l2` and `r2`. -/
def bitSite (i : Nat) : Nat := if i < 6 then i else i + 2

/-! ## Concrete configurations and inputs -/

/-- The memory when `main` enters its loop: static storage starts zeroed,
`main` has stored the defaults into `state`, and nothing has written
`g_psx_shared`. -/
def bootMemory : Memory :=
  { state := main_init_state ⟨0, 0, 0, 0, 0, 0, 0, 0⟩,
    g_psx_shared := ⟨0, ⟨0, 0, 0, 0, 0, 0, 0, 0⟩⟩ }

/-- Line levels of the mapping scenario: GPIO 22 (Circle) at level 1, every
other line at level 0. -/
def circleHigh (pin : Nat) : Bool := pin == 22

/-- Every line at level 0 (every button held down). -/
def allLow (_pin : Nat) : Bool := false

/-- Every line at level 1 (no button held down). -/
def allHigh (_pin : Nat) : Bool := true

/-- A board on which only the first five slots are configured. -/
def fiveButtonBoard : Board :=
  { btn_count := 5, btn_pins := main_btn_pins, masks := padMasks }

/-! ## The invariant of the interleaved machine -/

/-- What holds of the writer core at its program counter: `incs` is even
between calls and the data is a snapshot that was sent; inside a call `incs` is
odd and the first `k` bytes of the data are those of `src`. -/
def writerOk (wpc : WriterPc) (incs : Nat) (data : PSXInputState)
    (sent : List PSXInputState) : Prop :=
  match wpc with
  | WriterPc.idle => incs % 2 = 0 ∧ data ∈ sent
  | WriterPc.copy k src =>
    incs % 2 = 1 ∧ src ∈ sent ∧ ∀ j, j < k → j < 8 → data.byte j = src.byte j

/-- What holds of the reader core at its program counter. -/
def readerOk (rpc : ReaderPc) (s : Conc) : Prop :=
  match rpc with
  | ReaderPc.start => True
  | ReaderPc.copy k =>
    s.c1 % 2 = 0 ∧ s.c1 ≤ s.incs ∧ s.v1 = s.c1 % 2 ^ 32 ∧
      (s.incs = s.c1 → ∀ j, j < k → j < 8 → s.dst.byte j = s.b.data.byte j)
  | ReaderPc.done => s.c2 - s.c1 < 2 ^ 32 → s.dst ∈ s.sent

/-- The invariant of the interleaved machine. -/
def Inv (s : Conc) : Prop :=
  s.b.seq = s.incs % 2 ^ 32 ∧ writerOk s.wpc s.incs s.b.data s.sent ∧ readerOk s.rpc s

/-! ## Concrete schedules -/

/-- The snapshot that the writer sends in the wrap-around schedule. -/
def wrapSnapshot : PSXInputState := ⟨1, 2, 3, 4, 5, 6, 7, 8⟩

/-- The machine before the wrap-around schedule: the buffer initialised, the
reader's destination zeroed. -/
def wrapStart : Conc :=
  Conc.init ⟨0, ⟨0, 0, 0, 0, 0, 0, 0, 0⟩⟩ ⟨0, 0, 0, 0, 0, 0, 0, 0⟩

/-- The wrap-around schedule: the reader loads `v1` and copies one byte, the
writer then completes 2^31 calls (ten steps each), and the reader copies the
remaining seven bytes and loads `v2`. -/
def wrapSchedule : List Core :=
  [Core.reader, Core.reader] ++
    (List.replicate (10 * 2 ^ 31) (Core.writer wrapSnapshot) ++ List.replicate 8 Core.reader)

/-- A schedule in which the reader's first attempt overlaps a write and is
retried: the reader loads `v1` and copies a byte, the writer starts a call, the
reader finishes its copy, fails the check and spins once on the odd counter,
the writer completes, and the reader's next attempt returns. -/
def retrySchedule : List Core :=
  [Core.reader, Core.reader, Core.writer wrapSnapshot, Core.writer wrapSnapshot] ++
    (List.replicate 7 Core.reader ++ ([Core.reader, Core.reader] ++
      (List.replicate 8 (Core.writer wrapSnapshot) ++ List.replicate 10 Core.reader)))

/-! ## The status LED (`psx_led_status.h`)

The context `g_led_ctx` and the output line GPIO 25 are the state.  The
functions take the value that `time_us_32()` returns when they call it; the
32-bit subtraction `now_ms - last_update_ms` is reduced modulo `2^32`, the
8-bit increment of `flash_count` modulo `2^8`. -/

/-- The enumeration `psx_led_status_t`. -/
inductive psx_led_status_t where
  | PSX_LED_IDLE
  | PSX_LED_READY
  | PSX_LED_POLL
  | PSX_LED_CONFIG
  | PSX_LED_ERROR
deriving DecidableEq

/-- The record `psx_led_context_t`. -/
structure psx_led_context_t where
  last_update_ms : Nat
  current_status : psx_led_status_t
  flash_count : Nat
  flash_index : Nat
  led_on : Bool
deriving DecidableEq

/-- The LED side of the program: the context `g_led_ctx`, the level of the
output line `PICO_LED_PIN`, and the values passed to `gpio_put`, oldest
first. -/
structure LedWorld where
  g_led_ctx : psx_led_context_t
  pin : Bool
  writes : List Bool
deriving DecidableEq

/-- The call `gpio_put(PICO_LED_PIN, v)`. -/
def gpio_put (v : Bool) (w : LedWorld) : LedWorld :=
  { w with pin := v, writes := w.writes ++ [v] }

/-- The subtraction of two `uint32_t` values. -/
def sub_u32 (a b : Nat) : Nat := (a % 2 ^ 32 + (2 ^ 32 - b % 2 ^ 32)) % 2 ^ 32

/-- The function `psx_led_init`: the line is driven to 0 and the context is
reset (`gpio_init` and `gpio_set_dir` only configure the pin). -/
def psx_led_init (w : LedWorld) : LedWorld :=
  let w := gpio_put false w
  { w with g_led_ctx :=
      { last_update_ms := 0, current_status := psx_led_status_t.PSX_LED_IDLE,
        flash_count := 0, flash_index := 0, led_on := false } }

/-- The function `psx_led_set_status`; `time_us_32` is what the timer returns
if it is read. -/
def psx_led_set_status (time_us_32 : Nat) (status : psx_led_status_t) (w : LedWorld) :
    LedWorld :=
  if w.g_led_ctx.current_status ≠ status then
    let w := { w with g_led_ctx :=
      { w.g_led_ctx with current_status := status, flash_count := 0, flash_index := 0,
                         led_on := false } }
    let w := gpio_put false w
    { w with g_led_ctx := { w.g_led_ctx with last_update_ms := time_us_32 / 1000 } }
  else w

/-- The toggle shared by the flashing branches of `psx_led_update`:
`led_on = !led_on; gpio_put(PICO_LED_PIN, led_on ? 1 : 0); last_update_ms = now_ms;`. -/
def led_toggle (now_ms : Nat) (w : LedWorld) : LedWorld :=
  let w := { w with g_led_ctx := { w.g_led_ctx with led_on := !w.g_led_ctx.led_on } }
  let w := gpio_put w.g_led_ctx.led_on w
  { w with g_led_ctx := { w.g_led_ctx with last_update_ms := now_ms } }

/-- The end of the pause in the POLL and CONFIG branches:
`flash_count = 0; led_on = false; gpio_put(PICO_LED_PIN, 0); last_update_ms = now_ms;`. -/
def led_pause_end (now_ms : Nat) (w : LedWorld) : LedWorld :=
  let w := { w with g_led_ctx := { w.g_led_ctx with flash_count := 0, led_on := false } }
  let w := gpio_put false w
  { w with g_led_ctx := { w.g_led_ctx with last_update_ms := now_ms } }

/-- The statement `if (!led_on) { flash_count++; }` on the 8-bit counter. -/
def count_flash (w : LedWorld) : LedWorld :=
  if !w.g_led_ctx.led_on then
    { w with g_led_ctx := { w.g_led_ctx with flash_count := (w.g_led_ctx.flash_count + 1) % 256 } }
  else w

/-- The statement `if (!led_on && ++flash_count >= 1) { flash_count = 0; }` of
the READY branch; the increment takes place only when the LED is off. -/
def count_ready (w : LedWorld) : LedWorld :=
  if !w.g_led_ctx.led_on then
    let w := { w with g_led_ctx :=
      { w.g_led_ctx with flash_count := (w.g_led_ctx.flash_count + 1) % 256 } }
    if w.g_led_ctx.flash_count ≥ 1 then
      { w with g_led_ctx := { w.g_led_ctx with flash_count := 0 } }
    else w
  else w

/-- The flash-then-pause branch of `psx_led_update` for `blinks` blinks (2 for
POLL, 3 for CONFIG). -/
def led_blink (blinks now_ms elapsed : Nat) (w : LedWorld) : LedWorld :=
  if w.g_led_ctx.flash_count < blinks then
    if elapsed ≥ 100 then count_flash (led_toggle now_ms w) else w
  else
    if elapsed ≥ 300 then led_pause_end now_ms w else w

/-- The function `psx_led_update`; `time_us_32` is what the timer returns. -/
def psx_led_update (time_us_32 : Nat) (w : LedWorld) : LedWorld :=
  let now_ms := time_us_32 / 1000
  let elapsed := sub_u32 now_ms w.g_led_ctx.last_update_ms
  match w.g_led_ctx.current_status with
  | psx_led_status_t.PSX_LED_IDLE =>
    if w.g_led_ctx.led_on then
      let w := gpio_put false w
      { w with g_led_ctx := { w.g_led_ctx with led_on := false } }
    else w
  | psx_led_status_t.PSX_LED_READY =>
    if elapsed ≥ 200 then count_ready (led_toggle now_ms w) else w
  | psx_led_status_t.PSX_LED_POLL => led_blink 2 now_ms elapsed w
  | psx_led_status_t.PSX_LED_CONFIG => led_blink 3 now_ms elapsed w
  | psx_led_status_t.PSX_LED_ERROR =>
    if elapsed ≥ 50 then led_toggle now_ms w else w

/-- A call into the LED module, with the timer value it sees. -/
inductive LedCall where
  | set_status (time_us_32 : Nat) (status : psx_led_status_t)
  | update (time_us_32 : Nat)
deriving DecidableEq

/-- One call. -/
def ledStep (w : LedWorld) (c : LedCall) : LedWorld :=
  match c with
  | LedCall.set_status t s => psx_led_set_status t s w
  | LedCall.update t => psx_led_update t w

/-- Calls made one after the other. -/
def runLed (calls : List LedCall) (w : LedWorld) : LedWorld := calls.foldl ledStep w

/-- The worlds after each call of a sequence, in order. -/
def ledStates : List LedCall → LedWorld → List LedWorld
  | [], _ => []
  | c :: cs, w => ledStep w c :: ledStates cs (ledStep w c)

/-- The calls `psx_led_update` made 1 ms, 2 ms, .., `n` ms after the moment
at which `time_us_32()` returned `u0`: the call `k` ms later finds the 32-bit
timer at `(u0 + 1000 * k) mod 2^32`. -/
def tickEachMs (u0 : Nat) : Nat → List LedCall
  | 0 => []
  | n + 1 => tickEachMs u0 n ++ [LedCall.update ((u0 + 1000 * (n + 1)) % 2 ^ 32)]

/-- The threshold of a status that toggles without counting. -/
def toggleThreshold (s : psx_led_status_t) : Nat :=
  match s with
  | psx_led_status_t.PSX_LED_READY => 200
  | psx_led_status_t.PSX_LED_ERROR => 50
  | _ => 0

/-- What holds of the LED context in every state reached from `psx_led_init`:
`flash_index` is 0; `flash_count` is 0 in IDLE, READY and ERROR, at most 2 in
POLL and at most 3 in CONFIG; the LED is off in IDLE and in the pause phase
(`flash_count` 2 in POLL, 3 in CONFIG). -/
def LedInv (c : psx_led_context_t) : Prop :=
  c.flash_index = 0 ∧
  match c.current_status with
  | psx_led_status_t.PSX_LED_IDLE => c.flash_count = 0 ∧ c.led_on = false
  | psx_led_status_t.PSX_LED_READY => c.flash_count = 0
  | psx_led_status_t.PSX_LED_POLL => c.flash_count ≤ 2 ∧ (c.flash_count = 2 → c.led_on = false)
  | psx_led_status_t.PSX_LED_CONFIG => c.flash_count ≤ 3 ∧ (c.flash_count = 3 → c.led_on = false)
  | psx_led_status_t.PSX_LED_ERROR => c.flash_count = 0

/-- A LED world in which the context holds arbitrary values, as before
`psx_led_init`. -/
def scratchLed : LedWorld :=
  { g_led_ctx := ⟨7, psx_led_status_t.PSX_LED_ERROR, 9, 9, true⟩, pin := true, writes := [] }

/-- The LED world after `psx_led_init`. -/
def bootLed : LedWorld := psx_led_init scratchLed

/-- The LED world reached from `psx_led_init` when READY is requested at timer
value 4294767000 and the tick at timer value 4294967000, 200 ms later and
296 microseconds before the 32-bit timer wraps, switches the LED on. -/
def wrapReadyLed : LedWorld :=
  runLed [LedCall.set_status 4294767000 psx_led_status_t.PSX_LED_READY,
    LedCall.update 4294967000] bootLed

/-- The LED world reached from `psx_led_init` when ERROR is requested at timer
value 4294917000 and the tick at timer value 4294967000, 50 ms later, switches
the LED on. -/
def wrapErrorLed : LedWorld :=
  runLed [LedCall.set_status 4294917000 psx_led_status_t.PSX_LED_ERROR,
    LedCall.update 4294967000] bootLed

/-! ## The buffer used sequentially -/

theorem memcpy_eq (dst src : PSXInputState) : memcpy dst src = src := by
  cases dst; cases src; rfl

theorem memset_ff (s : PSXInputState) :
    memset s 0xFF = ⟨0xFF, 0xFF, 0xFF, 0xFF, 0xFF, 0xFF, 0xFF, 0xFF⟩ := by
  cases s; rfl

theorem write_seq (b : PSXSharedBuffer) (src : PSXInputState) :
    (psx_shared_write b src).seq = (b.seq + 2) % 2 ^ 32 := by
  simp only [psx_shared_write, psx_shared_write_copied, psx_shared_write_begin,
    atomic_fetch_add_seq]
  omega

theorem write_data (b : PSXSharedBuffer) (src : PSXInputState) :
    (psx_shared_write b src).data = src := by
  simp [psx_shared_write, psx_shared_write_copied, psx_shared_write_begin,
    atomic_fetch_add_seq, memcpy_eq]

theorem write_seq_parity (b : PSXSharedBuffer) (src : PSXInputState) :
    (psx_shared_write b src).seq % 2 = b.seq % 2 := by
  rw [write_seq]; omega

theorem write_begin_parity (b : PSXSharedBuffer) :
    (psx_shared_write_begin b).seq % 2 = (b.seq + 1) % 2 := by
  simp only [psx_shared_write_begin, atomic_fetch_add_seq]
  omega

theorem write_copied_seq (b : PSXSharedBuffer) (src : PSXInputState) :
    (psx_shared_write_copied b src).seq = (psx_shared_write_begin b).seq := rfl

theorem read_of_even (fuel : Nat) (b : PSXSharedBuffer) (dst : PSXInputState)
    (h : b.seq % 2 = 0) :
    psx_shared_read (fuel + 1) b dst = some (b, b.data) := by
  simp [psx_shared_read, Nat.and_one_is_mod, h, memcpy_eq]

theorem read_of_odd (fuel : Nat) (b : PSXSharedBuffer) (dst : PSXInputState)
    (h : b.seq % 2 = 1) :
    psx_shared_read fuel b dst = none := by
  induction fuel with
  | zero => rfl
  | succ n ih => simp [psx_shared_read, Nat.and_one_is_mod, h, ih]

theorem read_buffer_unchanged (fuel : Nat) (b b1 : PSXSharedBuffer) (dst d : PSXInputState)
    (h : psx_shared_read fuel b dst = some (b1, d)) : b1 = b := by
  induction fuel generalizing dst with
  | zero => simp [psx_shared_read] at h
  | succ n ih =>
    simp only [psx_shared_read] at h
    split at h
    · exact ih _ h
    · simp at h; exact h.1.symm

theorem runCalls_even (calls : List Call) (b : PSXSharedBuffer) (h : b.seq % 2 = 0) :
    ∃ b1, runCalls 1 calls b = some b1 ∧ b1.seq % 2 = 0 := by
  induction calls generalizing b with
  | nil => exact ⟨b, rfl, h⟩
  | cons c cs ih =>
    cases c with
    | write src =>
      simp only [runCalls]
      exact ih _ (by rw [write_seq_parity]; exact h)
    | read dst =>
      simp only [runCalls, read_of_even 0 b dst h]
      exact ih _ h

/-- C2: on a buffer whose `seq` is even, `psx_shared_write(b, s)` followed by
`psx_shared_read(b, dst)` returns in the first iteration of the loop with
`dst` equal to `s`, and the read leaves `seq` and `data` of the buffer as the
write left them. -/
theorem write_read_round_trip (b : PSXSharedBuffer) (s dst : PSXInputState)
    (h : b.seq % 2 = 0) :
    psx_shared_read 1 (psx_shared_write b s) dst = some (psx_shared_write b s, s) := by
  have he : (psx_shared_write b s).seq % 2 = 0 := by rw [write_seq_parity]; exact h
  rw [read_of_even 0 _ dst he, write_data]

theorem write_read_round_trip_witness :
    (4294967294 : Nat) % 2 = 0 ∧
    psx_shared_read 1 (psx_shared_write ⟨4294967294, ⟨0, 0, 0, 0, 0, 0, 0, 0⟩⟩ ⟨1, 2, 3, 4, 5, 6, 7, 8⟩)
        ⟨9, 9, 9, 9, 9, 9, 9, 9⟩ =
      some (⟨0, ⟨1, 2, 3, 4, 5, 6, 7, 8⟩⟩, ⟨1, 2, 3, 4, 5, 6, 7, 8⟩) :=
  ⟨by decide, write_read_round_trip ⟨4294967294, ⟨0, 0, 0, 0, 0, 0, 0, 0⟩⟩ ⟨1, 2, 3, 4, 5, 6, 7, 8⟩
    ⟨9, 9, 9, 9, 9, 9, 9, 9⟩ (by decide)⟩

/-- C3: from `psx_shared_init`, every finite sequence of completed write and
read calls runs to the end and leaves `seq` even; on the buffer reached, a
write advances `seq` by 2 modulo 2^32, `seq` is odd after the first increment
and after the copy and even again after the second increment, and a read
returns with the buffer unchanged. -/
theorem seq_stability (b0 : PSXSharedBuffer) (calls : List Call) :
    ∃ b, runCalls 1 calls (psx_shared_init b0) = some b ∧ b.seq % 2 = 0 ∧
      (∀ src, (psx_shared_write b src).seq = (b.seq + 2) % 2 ^ 32 ∧
        (psx_shared_write_begin b).seq % 2 = 1 ∧
        (psx_shared_write_copied b src).seq % 2 = 1 ∧
        (psx_shared_write b src).seq % 2 = 0) ∧
      (∀ dst, ∃ d, psx_shared_read 1 b dst = some (b, d)) := by
  obtain ⟨b, hrun, hev⟩ := runCalls_even calls (psx_shared_init b0) rfl
  refine ⟨b, hrun, hev, ?_, ?_⟩
  · intro src
    refine ⟨write_seq b src, ?_, ?_, ?_⟩
    · rw [write_begin_parity]; omega
    · rw [write_copied_seq, write_begin_parity]; omega
    · rw [write_seq_parity]; exact hev
  · intro dst
    exact ⟨b.data, read_of_even 0 b dst hev⟩

/-! ## The poll cycle: closed form -/

theorem sample_fst (c : Board) (g : Lines) (k i : Nat) (x : Exec) :
    (sample c g k i x).1 = pressedAt c g k i := by
  unfold sample pressedAt; split <;> simp [*]

theorem sample_mem (c : Board) (g : Lines) (k i : Nat) (x : Exec) :
    (sample c g k i x).2.mem = x.mem := by
  unfold sample; split <;> rfl

theorem sample_trace (c : Board) (g : Lines) (k i : Nat) (x : Exec) :
    (sample c g k i x).2.trace = x.trace ++ readEvent c g k i := by
  unfold sample readEvent; split <;> simp

theorem store_mem (f : Field) (v : Nat) (x : Exec) :
    (store f v x).mem = { x.mem with state := x.mem.state.store f v } := rfl

theorem store_trace (f : Field) (v : Nat) (x : Exec) :
    (store f v x).trace = x.trace ++ [Event.store f v] := rfl

theorem store_trigger_eq (p : Bool) (f : Field) (x : Exec) :
    store_trigger p f x = store f (triggerValue p) x := by
  cases p <;> rfl

theorem poll_state (c : Board) (g : Lines) (m : Memory) :
    (poll_buttons c g m).mem.state =
      ⟨polled_b1 c g, polled_b2 c g, 0x80, 0x80, 0x80, 0x80,
        triggerValue (pressedAt c g 6 6), triggerValue (pressedAt c g 7 7)⟩ := by
  simp only [poll_buttons, store_trigger_eq, store_mem, sample_fst, sample_mem,
    PSXInputState.store, polled_b1, polled_b2]

theorem poll_shared (c : Board) (g : Lines) (m : Memory) :
    (poll_buttons c g m).mem.g_psx_shared = m.g_psx_shared := by
  simp only [poll_buttons, store_trigger_eq, store_mem, sample_mem]

theorem poll_trace (c : Board) (g : Lines) (m : Memory) :
    (poll_buttons c g m).trace =
      readEvent c g 0 0 ++ readEvent c g 1 1 ++ readEvent c g 2 2 ++ readEvent c g 3 3 ++
      readEvent c g 4 4 ++ readEvent c g 5 5 ++
      readEvent c g 6 6 ++ [Event.store Field.l2 (triggerValue (pressedAt c g 6 6))] ++
      readEvent c g 7 7 ++ [Event.store Field.r2 (triggerValue (pressedAt c g 7 7))] ++
      readEvent c g 8 6 ++ readEvent c g 9 7 ++
      readEvent c g 10 8 ++ readEvent c g 11 9 ++ readEvent c g 12 10 ++ readEvent c g 13 11 ++
      readEvent c g 14 12 ++ readEvent c g 15 13 ++
      [Event.store Field.buttons1 (polled_b1 c g), Event.store Field.buttons2 (polled_b2 c g),
       Event.store Field.lx 0x80, Event.store Field.ly 0x80, Event.store Field.rx 0x80,
       Event.store Field.ry 0x80] := by
  simp only [poll_buttons, store_trigger_eq, store_trace, sample_fst, sample_trace,
    polled_b1, polled_b2, List.nil_append, List.append_assoc, List.cons_append]

/-! ## Masks and bits -/

theorem singleBit_ne_zero {x : Nat} (h : SingleBit x) : x ≠ 0 := by
  unfold SingleBit at h
  simp only [List.mem_cons, List.mem_singleton, List.not_mem_nil, or_false] at h
  omega

theorem ff_and_singleBit {x : Nat} (h : SingleBit x) : 0xFF &&& x = x := by
  unfold SingleBit at h
  simp only [List.mem_cons, List.mem_singleton, List.not_mem_nil, or_false] at h
  rcases h with h | h | h | h | h | h | h | h <;> subst h <;> decide

theorem complement_and_self {x : Nat} (h : SingleBit x) : (0xFF ^^^ (x % 256)) &&& x = 0 := by
  unfold SingleBit at h
  simp only [List.mem_cons, List.mem_singleton, List.not_mem_nil, or_false] at h
  rcases h with h | h | h | h | h | h | h | h <;> subst h <;> decide

theorem complement_and_other {x y : Nat} (hx : SingleBit x) (hy : SingleBit y) (hne : x ≠ y) :
    (0xFF ^^^ (y % 256)) &&& x = x := by
  unfold SingleBit at hx hy
  simp only [List.mem_cons, List.mem_singleton, List.not_mem_nil, or_false] at hx hy
  rcases hx with h | h | h | h | h | h | h | h <;> subst h <;>
    rcases hy with h | h | h | h | h | h | h | h <;> subst h <;>
    first
      | exact absurd rfl hne
      | decide

theorem clear_mask_and_self (b : Nat) {x : Nat} (h : SingleBit x) : clear_mask b x &&& x = 0 := by
  unfold clear_mask
  rw [Nat.and_assoc, complement_and_self h, Nat.and_zero]

theorem clear_mask_and_other (b : Nat) {x y : Nat} (hx : SingleBit x) (hy : SingleBit y)
    (hne : x ≠ y) : clear_mask b y &&& x = b &&& x := by
  unfold clear_mask
  rw [Nat.and_assoc, complement_and_other hx hy hne]

theorem clear_if_and_self (p : Bool) (b : Nat) {x : Nat} (h : SingleBit x) :
    clear_if p b x &&& x = if p then 0 else b &&& x := by
  cases p
  · rfl
  · simp [clear_if, clear_mask_and_self b h]

theorem clear_if_and_other (p : Bool) (b : Nat) {x y : Nat} (hx : SingleBit x) (hy : SingleBit y)
    (hne : x ≠ y) : clear_if p b y &&& x = b &&& x := by
  cases p
  · rfl
  · simp [clear_if, clear_mask_and_other b hx hy hne]

theorem clear_if_false (b x : Nat) : clear_if false b x = b := rfl

theorem pressed_iff_of_and {b x : Nat} {p : Bool} (hx : SingleBit x)
    (h : b &&& x = if p then 0 else x) : (Pressed b x ↔ p = true) ∧ (Released b x ↔ p = false) := by
  have h0 := singleBit_ne_zero hx
  unfold Pressed Released
  cases p
  · simp at h; simp [h, h0]
  · simp at h; simp [h, Ne.symm h0]

theorem clear_if_and_other' (p : Bool) (b : Nat) {x y : Nat} (hx : SingleBit x) (hy : SingleBit y)
    (hne : y ≠ x) : clear_if p b y &&& x = b &&& x :=
  clear_if_and_other p b hx hy (Ne.symm hne)

theorem polled_b2_and (c : Board) (g : Lines) (hwf : c.masks.WellFormed) (i : Nat) (hi : i < 8) :
    polled_b2 c g &&& c.masks.ofIndex i =
      if pressedAt c g (bitSite i) i then 0 else c.masks.ofIndex i := by
  simp only [Masks.WellFormed, Masks.group2, Masks.group1, List.nodup_cons, List.mem_cons,
    List.mem_singleton, List.not_mem_nil, or_false, not_or, forall_eq_or_imp, forall_eq,
    List.nodup_nil, and_true, not_false_eq_true] at hwf
  obtain ⟨⟨s0, s1, s2, s3, s4, s5, s6, s7⟩, -, ⟨⟨n01, n02, n03, n04, n05, n06, n07⟩,
    ⟨n12, n13, n14, n15, n16, n17⟩, ⟨n23, n24, n25, n26, n27⟩, ⟨n34, n35, n36, n37⟩,
    ⟨n45, n46, n47⟩, ⟨n56, n57⟩, n67⟩, -⟩ := hwf
  interval_cases i <;>
    simp only [polled_b2, Masks.ofIndex, bitSite, clear_if_and_other, clear_if_and_other',
      clear_if_and_self, ff_and_singleBit, ne_eq, not_false_eq_true, *] <;> simp

theorem polled_b1_and (c : Board) (g : Lines) (hwf : c.masks.WellFormed) (i : Nat)
    (h8 : 8 ≤ i) (hi : i < 14) :
    polled_b1 c g &&& c.masks.ofIndex i =
      if pressedAt c g (bitSite i) i then 0 else c.masks.ofIndex i := by
  simp only [Masks.WellFormed, Masks.group2, Masks.group1, List.nodup_cons, List.mem_cons,
    List.mem_singleton, List.not_mem_nil, or_false, not_or, forall_eq_or_imp, forall_eq,
    List.nodup_nil, and_true, not_false_eq_true] at hwf
  obtain ⟨-, ⟨s0, s1, s2, s3, s4, s5⟩, -, ⟨n01, n02, n03, n04, n05⟩,
    ⟨n12, n13, n14, n15⟩, ⟨n23, n24, n25⟩, ⟨n34, n35⟩, n45⟩ := hwf
  interval_cases i <;>
    simp only [polled_b1, Masks.ofIndex, bitSite, clear_if_and_other, clear_if_and_other',
      clear_if_and_self, ff_and_singleBit, ne_eq, not_false_eq_true, *] <;> simp

theorem polled_b1_unmapped (c : Board) (g : Lines) (hwf : c.masks.WellFormed) (x : Nat)
    (hx : SingleBit x) (hnot : x ∉ c.masks.group1) : polled_b1 c g &&& x = x := by
  simp only [Masks.WellFormed, Masks.group2, Masks.group1, List.nodup_cons, List.mem_cons,
    List.mem_singleton, List.not_mem_nil, or_false, not_or, forall_eq_or_imp, forall_eq,
    List.nodup_nil, and_true, not_false_eq_true] at hwf hnot
  obtain ⟨-, ⟨s0, s1, s2, s3, s4, s5⟩, -, -⟩ := hwf
  obtain ⟨n0, n1, n2, n3, n4, n5⟩ := hnot
  simp only [polled_b1, clear_if_and_other, ff_and_singleBit, ne_eq, not_false_eq_true, *]

/-! ## The poll cycle: reads and stores -/

theorem pressedAt_const (c : Board) (lv : Nat → Bool) (k i : Nat) :
    pressedAt c (constLines lv) k i = (decide (c.btn_count > (i : Int)) && !(lv (c.btn_pins i))) :=
  rfl

theorem pressedAt_unconfigured (c : Board) (g : Lines) (k i : Nat) (h : c.btn_count ≤ (i : Int)) :
    pressedAt c g k i = false := by
  have : ¬ c.btn_count > (i : Int) := by omega
  simp [pressedAt, this]

theorem readIndices_append (xs ys : List Event) :
    readIndices (xs ++ ys) = readIndices xs ++ readIndices ys := by
  induction xs with
  | nil => rfl
  | cons e es ih => cases e <;> simp [readIndices, ih]

theorem readIndices_readEvent (c : Board) (g : Lines) (k i : Nat) :
    readIndices (readEvent c g k i) = if c.btn_count > (i : Int) then [i] else [] := by
  unfold readEvent; split <;> rfl

theorem storesOf_append (xs ys : List Event) :
    storesOf (xs ++ ys) = storesOf xs ++ storesOf ys := by
  induction xs with
  | nil => rfl
  | cons e es ih => cases e <;> simp [storesOf, ih]

theorem storesOf_store (f : Field) (v : Nat) (es : List Event) :
    storesOf (Event.store f v :: es) = (f, v) :: storesOf es := rfl

theorem storesOf_nil : storesOf [] = [] := rfl

theorem storesOf_readEvent (c : Board) (g : Lines) (k i : Nat) :
    storesOf (readEvent c g k i) = [] := by
  unfold readEvent; split <;> rfl

theorem readIndices_store (f : Field) (v : Nat) (es : List Event) :
    readIndices (Event.store f v :: es) = readIndices es := rfl

theorem readIndices_nil : readIndices [] = [] := rfl

theorem poll_readIndices (c : Board) (g : Lines) (m : Memory) :
    readIndices (poll_buttons c g m).trace =
      ([0, 1, 2, 3, 4, 5, 6, 7, 6, 7, 8, 9, 10, 11, 12, 13] : List Nat).filter
        (fun i : Nat => decide (c.btn_count > (i : Int))) := by
  rw [poll_trace]
  simp only [readIndices_append, readIndices_readEvent, readIndices_store, readIndices_nil,
    List.append_nil]
  have e : ∀ i : Nat, (if c.btn_count > (i : Int) then [i] else []) =
      List.filter (fun i : Nat => decide (c.btn_count > (i : Int))) [i] := by
    intro i
    by_cases h : c.btn_count > (i : Int) <;> simp [h]
  simp only [e, ← List.filter_append]
  rfl

theorem singleBit_ofIndex (ms : Masks) (hwf : ms.WellFormed) (i : Nat) (hi : i < 14) :
    SingleBit (ms.ofIndex i) := by
  simp only [Masks.WellFormed, Masks.group2, Masks.group1, List.mem_cons,
    List.mem_singleton, List.not_mem_nil, or_false, forall_eq_or_imp, forall_eq] at hwf
  obtain ⟨⟨s0, s1, s2, s3, s4, s5, s6, s7⟩, ⟨t0, t1, t2, t3, t4, t5⟩, -, -⟩ := hwf
  interval_cases i <;> simp only [Masks.ofIndex] <;> assumption

theorem button_bit (c : Board) (g : Lines) (m : Memory) (hwf : c.masks.WellFormed) (i : Nat) :
    (i < 8 →
      (Pressed (poll_buttons c g m).mem.state.buttons2 (c.masks.ofIndex i) ↔
        pressedAt c g (bitSite i) i = true) ∧
      (Released (poll_buttons c g m).mem.state.buttons2 (c.masks.ofIndex i) ↔
        pressedAt c g (bitSite i) i = false)) ∧
    (8 ≤ i → i < 14 →
      (Pressed (poll_buttons c g m).mem.state.buttons1 (c.masks.ofIndex i) ↔
        pressedAt c g (bitSite i) i = true) ∧
      (Released (poll_buttons c g m).mem.state.buttons1 (c.masks.ofIndex i) ↔
        pressedAt c g (bitSite i) i = false)) := by
  rw [poll_state]
  constructor
  · intro hi
    exact pressed_iff_of_and (singleBit_ofIndex _ hwf i (by omega)) (polled_b2_and c g hwf i hi)
  · intro h8 hi
    exact pressed_iff_of_and (singleBit_ofIndex _ hwf i hi) (polled_b1_and c g hwf i h8 hi)

theorem pressedAt_const_true (c : Board) (lv : Nat → Bool) (k i : Nat)
    (h : c.btn_count > (i : Int)) :
    (pressedAt c (constLines lv) k i = true ↔ lv (c.btn_pins i) = false) ∧
    (pressedAt c (constLines lv) k i = false ↔ lv (c.btn_pins i) = true) := by
  rw [pressedAt_const]
  cases lv (c.btn_pins i) <;> simp [h]

theorem pressedAt_released (c : Board) (g : Lines) (k i : Nat)
    (h : c.btn_count > (i : Int) → g k (c.btn_pins i) = true) : pressedAt c g k i = false := by
  unfold pressedAt
  by_cases hc : c.btn_count > (i : Int)
  · simp [h hc]
  · simp [hc]

theorem triggerValue_cases (p : Bool) :
    (triggerValue p = 0x00 ∨ triggerValue p = 0xFF) ∧ (triggerValue p = 0xFF ↔ p = true) ∧
    (triggerValue p = 0x00 ↔ p = false) := by
  cases p <;> simp [triggerValue]

theorem count_readIndices (c : Board) (g : Lines) (m : Memory) (i : Nat) :
    (readIndices (poll_buttons c g m).trace).count i =
      if c.btn_count > (i : Int) ∧ i < 14 then (if i = 6 ∨ i = 7 then 2 else 1) else 0 := by
  rw [poll_readIndices]
  by_cases hc : c.btn_count > (i : Int)
  · rw [List.count_filter (by simpa using hc)]
    by_cases hi : i < 14
    · interval_cases i <;> simp at hc <;> simp [hc]
    · have : i ∉ ([0, 1, 2, 3, 4, 5, 6, 7, 6, 7, 8, 9, 10, 11, 12, 13] : List Nat) := by
        simp only [List.mem_cons, List.mem_singleton, List.not_mem_nil, or_false]
        omega
      simp [hi, List.count_eq_zero_of_not_mem this]
  · have : i ∉ List.filter (fun i : Nat => decide (c.btn_count > (i : Int)))
        ([0, 1, 2, 3, 4, 5, 6, 7, 6, 7, 8, 9, 10, 11, 12, 13] : List Nat) := by
      intro hmem
      have := (List.mem_filter.mp hmem).2
      simp at this
      exact hc this
    simp [hc, List.count_eq_zero_of_not_mem this]

/-! ## The poll cycle: properties -/

/-- C4: with `btn_count = 14`, masks that are pairwise-distinct single bits and
every line held at one level during the cycle, after `poll_buttons` the bit of
button `i` is 0 (pressed) exactly when line `i` is at level 0 and 1 (released)
exactly when it is at level 1, indices 0-7 in `buttons2` and 8-13 in
`buttons1`; every bit of `buttons1` that is no button's mask stays 1. -/
theorem mapping_correct (c : Board) (lv : Nat → Bool) (m : Memory)
    (hcount : c.btn_count = 14) (hwf : c.masks.WellFormed) :
    (∀ i, i < 8 →
      (Pressed (poll_buttons c (constLines lv) m).mem.state.buttons2 (c.masks.ofIndex i) ↔
        lv (c.btn_pins i) = false) ∧
      (Released (poll_buttons c (constLines lv) m).mem.state.buttons2 (c.masks.ofIndex i) ↔
        lv (c.btn_pins i) = true)) ∧
    (∀ i, 8 ≤ i → i < 14 →
      (Pressed (poll_buttons c (constLines lv) m).mem.state.buttons1 (c.masks.ofIndex i) ↔
        lv (c.btn_pins i) = false) ∧
      (Released (poll_buttons c (constLines lv) m).mem.state.buttons1 (c.masks.ofIndex i) ↔
        lv (c.btn_pins i) = true)) ∧
    (∀ x, SingleBit x → x ∉ c.masks.group1 →
      Released (poll_buttons c (constLines lv) m).mem.state.buttons1 x) := by
  refine ⟨fun i hi => ?_, fun i h8 hi => ?_, fun x hx hn => ?_⟩
  · have hb := (button_bit c (constLines lv) m hwf i).1 hi
    have hp := pressedAt_const_true c lv (bitSite i) i (by omega)
    exact ⟨hb.1.trans hp.1, hb.2.trans hp.2⟩
  · have hb := (button_bit c (constLines lv) m hwf i).2 h8 hi
    have hp := pressedAt_const_true c lv (bitSite i) i (by omega)
    exact ⟨hb.1.trans hp.1, hb.2.trans hp.2⟩
  · rw [poll_state]
    exact polled_b1_unmapped c (constLines lv) hwf x hx hn

/-- C5: whatever the snapshot held before and whatever `btn_count` is, when
every line that is read is at level 1 the snapshot after `poll_buttons` is
buttons1 = buttons2 = 0xFF, lx = ly = rx = ry = 0x80, l2 = r2 = 0x00, which is
also what `main` stores before the first cycle. -/
theorem default_snapshot (c : Board) (g : Lines) (m : Memory) (s0 : PSXInputState)
    (h : ∀ k i : Nat, c.btn_count > (i : Int) → g k (c.btn_pins i) = true) :
    (poll_buttons c g m).mem.state = ⟨0xFF, 0xFF, 0x80, 0x80, 0x80, 0x80, 0x00, 0x00⟩ ∧
    main_init_state s0 = ⟨0xFF, 0xFF, 0x80, 0x80, 0x80, 0x80, 0x00, 0x00⟩ := by
  have hp : ∀ k i, pressedAt c g k i = false := fun k i => pressedAt_released c g k i (h k i)
  constructor
  · rw [poll_state]
    simp only [polled_b1, polled_b2, hp, clear_if_false, triggerValue]
    rfl
  · rfl

/-- C6: an index `i` at or beyond `btn_count` reads as released after
`poll_buttons`, whatever the lines do: its bit in `buttons2` (i < 8) or
`buttons1` (8 ≤ i < 14) is 1, `l2` is 0x00 when `i` is 6, `r2` is 0x00 when
`i` is 7, and no `gpio_get` of the cycle is made for index `i`. -/
theorem unconfigured_released (c : Board) (g : Lines) (m : Memory) (i : Nat)
    (hwf : c.masks.WellFormed) (hi : c.btn_count ≤ (i : Int)) :
    (i < 8 → Released (poll_buttons c g m).mem.state.buttons2 (c.masks.ofIndex i)) ∧
    (8 ≤ i → i < 14 → Released (poll_buttons c g m).mem.state.buttons1 (c.masks.ofIndex i)) ∧
    (i = 6 → (poll_buttons c g m).mem.state.l2 = 0x00) ∧
    (i = 7 → (poll_buttons c g m).mem.state.r2 = 0x00) ∧
    i ∉ readIndices (poll_buttons c g m).trace := by
  have hb := button_bit c g m hwf i
  refine ⟨fun h => (hb.1 h).2.mpr (pressedAt_unconfigured c g _ i hi),
    fun h8 h14 => (hb.2 h8 h14).2.mpr (pressedAt_unconfigured c g _ i hi), ?_, ?_, ?_⟩
  · intro h6
    subst h6
    rw [poll_state]
    simp [pressedAt_unconfigured c g 6 6 hi, triggerValue]
  · intro h7
    subst h7
    rw [poll_state]
    simp [pressedAt_unconfigured c g 7 7 hi, triggerValue]
  · intro hmem
    have hcount := count_readIndices c g m i
    have hn : ¬ c.btn_count > (i : Int) := by omega
    simp only [hn, false_and, if_false] at hcount
    exact List.count_eq_zero.mp hcount hmem

/-- C8: the snapshot after `poll_buttons` is the same for any two prior
memories, given the same configuration and the same line levels; so after two
cycles in a row the snapshot is that of the second cycle alone. -/
theorem no_latching (c : Board) (g : Lines) (m1 m2 : Memory) :
    (poll_buttons c g m1).mem.state = (poll_buttons c g m2).mem.state ∧
    ∀ g0 : Lines, (main_loop c [g0, g] m1).state = (poll_buttons c g m2).mem.state := by
  constructor
  · rw [poll_state, poll_state]
  · intro g0
    simp only [main_loop]
    rw [poll_state, poll_state]

/-- C10: with every line held at one level during the cycle and masks that
are pairwise-distinct single bits, after `poll_buttons` the field `l2` is 0x00
or 0xFF; it is 0xFF exactly when the L2 bit of `buttons2` is 0, which is
exactly when index 6 is configured and its line is at level 0; the same for
`r2`, the R2 bit and index 7. -/
theorem trigger_mirroring (c : Board) (lv : Nat → Bool) (m : Memory)
    (hwf : c.masks.WellFormed) :
    ((poll_buttons c (constLines lv) m).mem.state.l2 = 0x00 ∨
      (poll_buttons c (constLines lv) m).mem.state.l2 = 0xFF) ∧
    ((poll_buttons c (constLines lv) m).mem.state.l2 = 0xFF ↔
      Pressed (poll_buttons c (constLines lv) m).mem.state.buttons2 c.masks.PSX_GAMEPAD_L2) ∧
    (Pressed (poll_buttons c (constLines lv) m).mem.state.buttons2 c.masks.PSX_GAMEPAD_L2 ↔
      (c.btn_count > 6 ∧ lv (c.btn_pins 6) = false)) ∧
    ((poll_buttons c (constLines lv) m).mem.state.r2 = 0x00 ∨
      (poll_buttons c (constLines lv) m).mem.state.r2 = 0xFF) ∧
    ((poll_buttons c (constLines lv) m).mem.state.r2 = 0xFF ↔
      Pressed (poll_buttons c (constLines lv) m).mem.state.buttons2 c.masks.PSX_GAMEPAD_R2) ∧
    (Pressed (poll_buttons c (constLines lv) m).mem.state.buttons2 c.masks.PSX_GAMEPAD_R2 ↔
      (c.btn_count > 7 ∧ lv (c.btn_pins 7) = false)) := by
  have h6 : Pressed (poll_buttons c (constLines lv) m).mem.state.buttons2
      c.masks.PSX_GAMEPAD_L2 ↔ pressedAt c (constLines lv) 6 6 = true :=
    ((button_bit c (constLines lv) m hwf 6).1 (by decide)).1
  have h7 : Pressed (poll_buttons c (constLines lv) m).mem.state.buttons2
      c.masks.PSX_GAMEPAD_R2 ↔ pressedAt c (constLines lv) 7 7 = true :=
    ((button_bit c (constLines lv) m hwf 7).1 (by decide)).1
  have t6 := triggerValue_cases (pressedAt c (constLines lv) 6 6)
  have t7 := triggerValue_cases (pressedAt c (constLines lv) 7 7)
  have p6 : pressedAt c (constLines lv) 6 6 = true ↔
      (c.btn_count > 6 ∧ lv (c.btn_pins 6) = false) := by
    rw [pressedAt_const]; simp
  have p7 : pressedAt c (constLines lv) 7 7 = true ↔
      (c.btn_count > 7 ∧ lv (c.btn_pins 7) = false) := by
    rw [pressedAt_const]; simp
  have hl2 : (poll_buttons c (constLines lv) m).mem.state.l2 =
      triggerValue (pressedAt c (constLines lv) 6 6) := by rw [poll_state]
  have hr2 : (poll_buttons c (constLines lv) m).mem.state.r2 =
      triggerValue (pressedAt c (constLines lv) 7 7) := by rw [poll_state]
  rw [hl2, hr2]
  exact ⟨t6.1, t6.2.1.trans h6.symm, h6.trans p6, t7.1, t7.2.1.trans h7.symm, h7.trans p7⟩

theorem mapping_correct_witness :
    (main_board padMasks).btn_count = 14 ∧ padMasks.WellFormed ∧
    Released (poll_buttons (main_board padMasks) (constLines circleHigh) bootMemory).mem.state.buttons2
      padMasks.PSX_GAMEPAD_CIRCLE ∧
    Pressed (poll_buttons (main_board padMasks) (constLines circleHigh) bootMemory).mem.state.buttons2
      padMasks.PSX_GAMEPAD_CROSS ∧
    Pressed (poll_buttons (main_board padMasks) (constLines circleHigh) bootMemory).mem.state.buttons2
      padMasks.PSX_GAMEPAD_TRIANGLE ∧
    Pressed (poll_buttons (main_board padMasks) (constLines circleHigh) bootMemory).mem.state.buttons2
      padMasks.PSX_GAMEPAD_SQUARE ∧
    Pressed (poll_buttons (main_board padMasks) (constLines circleHigh) bootMemory).mem.state.buttons2
      padMasks.PSX_GAMEPAD_L1 ∧
    Pressed (poll_buttons (main_board padMasks) (constLines circleHigh) bootMemory).mem.state.buttons2
      padMasks.PSX_GAMEPAD_R1 ∧
    Pressed (poll_buttons (main_board padMasks) (constLines circleHigh) bootMemory).mem.state.buttons2
      padMasks.PSX_GAMEPAD_L2 ∧
    Pressed (poll_buttons (main_board padMasks) (constLines circleHigh) bootMemory).mem.state.buttons2
      padMasks.PSX_GAMEPAD_R2 ∧
    Pressed (poll_buttons (main_board padMasks) (constLines circleHigh) bootMemory).mem.state.buttons1
      padMasks.PSX_GAMEPAD_DPAD_UP ∧
    Pressed (poll_buttons (main_board padMasks) (constLines circleHigh) bootMemory).mem.state.buttons1
      padMasks.PSX_GAMEPAD_DPAD_DOWN ∧
    Pressed (poll_buttons (main_board padMasks) (constLines circleHigh) bootMemory).mem.state.buttons1
      padMasks.PSX_GAMEPAD_DPAD_LEFT ∧
    Pressed (poll_buttons (main_board padMasks) (constLines circleHigh) bootMemory).mem.state.buttons1
      padMasks.PSX_GAMEPAD_DPAD_RIGHT ∧
    Pressed (poll_buttons (main_board padMasks) (constLines circleHigh) bootMemory).mem.state.buttons1
      padMasks.PSX_GAMEPAD_START ∧
    Pressed (poll_buttons (main_board padMasks) (constLines circleHigh) bootMemory).mem.state.buttons1
      padMasks.PSX_GAMEPAD_SELECT ∧
    Released (poll_buttons (main_board padMasks) (constLines circleHigh) bootMemory).mem.state.buttons1 2 ∧
    Released (poll_buttons (main_board padMasks) (constLines circleHigh) bootMemory).mem.state.buttons1 4 :=
  have h := mapping_correct (main_board padMasks) circleHigh bootMemory rfl (by decide)
  ⟨rfl, by decide,
    (h.1 0 (by decide)).2.mpr rfl, (h.1 1 (by decide)).1.mpr rfl,
    (h.1 2 (by decide)).1.mpr rfl, (h.1 3 (by decide)).1.mpr rfl,
    (h.1 4 (by decide)).1.mpr rfl, (h.1 5 (by decide)).1.mpr rfl,
    (h.1 6 (by decide)).1.mpr rfl, (h.1 7 (by decide)).1.mpr rfl,
    (h.2.1 8 (by decide) (by decide)).1.mpr rfl, (h.2.1 9 (by decide) (by decide)).1.mpr rfl,
    (h.2.1 10 (by decide) (by decide)).1.mpr rfl, (h.2.1 11 (by decide) (by decide)).1.mpr rfl,
    (h.2.1 12 (by decide) (by decide)).1.mpr rfl, (h.2.1 13 (by decide) (by decide)).1.mpr rfl,
    h.2.2 2 (by decide) (by decide), h.2.2 4 (by decide) (by decide)⟩

theorem default_snapshot_witness :
    (∀ k i : Nat, (main_board padMasks).btn_count > (i : Int) →
      constLines allHigh k ((main_board padMasks).btn_pins i) = true) ∧
    (poll_buttons (main_board padMasks) (constLines allHigh)
        ⟨⟨1, 2, 3, 4, 5, 6, 7, 8⟩, ⟨0, ⟨0, 0, 0, 0, 0, 0, 0, 0⟩⟩⟩).mem.state =
      ⟨0xFF, 0xFF, 0x80, 0x80, 0x80, 0x80, 0x00, 0x00⟩ ∧
    main_init_state ⟨1, 2, 3, 4, 5, 6, 7, 8⟩ = ⟨0xFF, 0xFF, 0x80, 0x80, 0x80, 0x80, 0x00, 0x00⟩ :=
  ⟨fun _ _ _ => rfl,
    default_snapshot (main_board padMasks) (constLines allHigh)
      ⟨⟨1, 2, 3, 4, 5, 6, 7, 8⟩, ⟨0, ⟨0, 0, 0, 0, 0, 0, 0, 0⟩⟩⟩ ⟨1, 2, 3, 4, 5, 6, 7, 8⟩
      (fun _ _ _ => rfl)⟩

theorem unconfigured_released_witness :
    fiveButtonBoard.masks.WellFormed ∧ fiveButtonBoard.btn_count ≤ ((6 : Nat) : Int) ∧
    Released (poll_buttons fiveButtonBoard (constLines allLow) bootMemory).mem.state.buttons2
      padMasks.PSX_GAMEPAD_L2 ∧
    (poll_buttons fiveButtonBoard (constLines allLow) bootMemory).mem.state.l2 = 0x00 ∧
    6 ∉ readIndices (poll_buttons fiveButtonBoard (constLines allLow) bootMemory).trace :=
  have h := unconfigured_released fiveButtonBoard (constLines allLow) bootMemory 6
    (by decide) (by decide)
  ⟨by decide, by decide, h.1 (by decide), h.2.2.1 rfl, h.2.2.2.2⟩

theorem trigger_mirroring_witness :
    (main_board padMasks).masks.WellFormed ∧
    (poll_buttons (main_board padMasks) (constLines allLow) bootMemory).mem.state.l2 = 0xFF ∧
    Pressed (poll_buttons (main_board padMasks) (constLines allLow) bootMemory).mem.state.buttons2
      padMasks.PSX_GAMEPAD_L2 ∧
    (poll_buttons (main_board padMasks) (constLines allLow) bootMemory).mem.state.r2 = 0xFF ∧
    Pressed (poll_buttons (main_board padMasks) (constLines allLow) bootMemory).mem.state.buttons2
      padMasks.PSX_GAMEPAD_R2 :=
  have h := trigger_mirroring (main_board padMasks) allLow bootMemory (by decide)
  ⟨by decide, h.2.1.mpr (h.2.2.1.mpr ⟨by decide, rfl⟩), h.2.2.1.mpr ⟨by decide, rfl⟩,
    h.2.2.2.2.1.mpr (h.2.2.2.2.2.mpr ⟨by decide, rfl⟩), h.2.2.2.2.2.mpr ⟨by decide, rfl⟩⟩

/-- C7, as stated, fails: after a poll cycle on the configuration of `main`
the buffer `g_psx_shared` does not hold the computed snapshot and its `seq`
has not advanced by 2. -/
theorem seqlock_publication_fails :
    ¬ ((poll_buttons (main_board padMasks) (constLines circleHigh) bootMemory).mem.g_psx_shared.data =
        (poll_buttons (main_board padMasks) (constLines circleHigh) bootMemory).mem.state ∧
      (poll_buttons (main_board padMasks) (constLines circleHigh) bootMemory).mem.g_psx_shared.seq =
        (bootMemory.g_psx_shared.seq + 2) % 2 ^ 32) := by
  decide

/-- C7, amended: a poll cycle leaves `g_psx_shared` as it was and changes the
record `state`, the storage handed to the responder, by eight single-field
stores in the order l2, r2, buttons1, buttons2, lx, ly, rx, ry; the values
stored are the fields of the snapshot found in `state` when the cycle
returns, which is the prior `state` with exactly those stores applied. -/
theorem in_place_publication (c : Board) (g : Lines) (m : Memory) :
    (poll_buttons c g m).mem.g_psx_shared = m.g_psx_shared ∧
    storesOf (poll_buttons c g m).trace =
      [(Field.l2, (poll_buttons c g m).mem.state.l2),
       (Field.r2, (poll_buttons c g m).mem.state.r2),
       (Field.buttons1, (poll_buttons c g m).mem.state.buttons1),
       (Field.buttons2, (poll_buttons c g m).mem.state.buttons2),
       (Field.lx, 0x80), (Field.ly, 0x80), (Field.rx, 0x80), (Field.ry, 0x80)] ∧
    (poll_buttons c g m).mem.state =
      (storesOf (poll_buttons c g m).trace).foldl (fun s fv => s.store fv.1 fv.2) m.state := by
  have ht : storesOf (poll_buttons c g m).trace =
      [(Field.l2, (poll_buttons c g m).mem.state.l2),
       (Field.r2, (poll_buttons c g m).mem.state.r2),
       (Field.buttons1, (poll_buttons c g m).mem.state.buttons1),
       (Field.buttons2, (poll_buttons c g m).mem.state.buttons2),
       (Field.lx, 0x80), (Field.ly, 0x80), (Field.rx, 0x80), (Field.ry, 0x80)] := by
    rw [poll_trace, poll_state]
    simp only [storesOf_append, storesOf_readEvent, storesOf_store, storesOf_nil,
      List.nil_append, List.append_nil, List.cons_append]
  refine ⟨poll_shared c g m, ht, ?_⟩
  rw [ht, poll_state]
  rfl

/-- C9, as stated, fails: on the configuration of `main` one poll cycle reads
button index 6 twice. -/
theorem single_sample_fails :
    ¬ ((readIndices (poll_buttons (main_board padMasks) (constLines circleHigh)
        bootMemory).trace).count 6 ≤ 1) := by
  decide

/-- C9, amended: in one call of `poll_buttons` an index that is not configured
(`btn_count ≤ i`, or `i ≥ 14`) is not read, a configured index other than 6 and
7 is read exactly once, and a configured index 6 or 7 is read exactly twice;
so no index is read more than twice. -/
theorem reads_per_index (c : Board) (g : Lines) (m : Memory) (i : Nat) :
    (readIndices (poll_buttons c g m).trace).count i =
      (if c.btn_count > (i : Int) ∧ i < 14 then (if i = 6 ∨ i = 7 then 2 else 1) else 0) ∧
    (readIndices (poll_buttons c g m).trace).count i ≤ 2 := by
  have h := count_readIndices c g m i
  refine ⟨h, ?_⟩
  rw [h]
  split_ifs <;> omega

/-- When the line of index 6 changes between the two reads that
`poll_buttons` makes of it, `l2` and the L2 bit of `buttons2` disagree. -/
theorem trigger_split_when_line_changes :
    (poll_buttons (main_board padMasks) (fun k _ => decide (8 ≤ k)) bootMemory).mem.state.l2 = 0xFF ∧
    Released (poll_buttons (main_board padMasks) (fun k _ => decide (8 ≤ k)) bootMemory).mem.state.buttons2
      padMasks.PSX_GAMEPAD_L2 := by
  decide

/-! ## The interleaved machine: invariant -/

theorem byte_setByte (s : PSXInputState) (k v j : Nat) :
    (s.setByte k v).byte j = if j = k ∧ k < 8 then v else s.byte j := by
  by_cases hk : k < 8
  · by_cases hj : j < 8
    · interval_cases k <;> interval_cases j <;> rfl
    · have hne : j ≠ k := by omega
      have h1 : ∀ t : PSXInputState, t.byte j = 0 := by
        intro t
        obtain ⟨n, rfl⟩ : ∃ n, j = n + 8 := ⟨j - 8, by omega⟩
        rfl
      simp [h1, hne]
  · obtain ⟨n, rfl⟩ : ∃ n, k = n + 8 := ⟨k - 8, by omega⟩
    simp [PSXInputState.setByte]

theorem ext_bytes (a b : PSXInputState) (h : ∀ j, j < 8 → a.byte j = b.byte j) : a = b := by
  have h0 := h 0 (by decide)
  have h1 := h 1 (by decide)
  have h2 := h 2 (by decide)
  have h3 := h 3 (by decide)
  have h4 := h 4 (by decide)
  have h5 := h 5 (by decide)
  have h6 := h 6 (by decide)
  have h7 := h 7 (by decide)
  cases a; cases b
  simp only [PSXInputState.byte] at h0 h1 h2 h3 h4 h5 h6 h7
  simp [*]

theorem inv_init (b0 : PSXSharedBuffer) (d0 : PSXInputState) : Inv (Conc.init b0 d0) := by
  simp [Inv, Conc.init, writerOk, readerOk, psx_shared_init]

theorem inv_writerStep (src : PSXInputState) (s : Conc) (h : Inv s) : Inv (writerStep src s) := by
  obtain ⟨hseq, hw, hr⟩ := h
  unfold writerStep
  cases hwpc : s.wpc with
  | idle =>
    rw [hwpc] at hw
    simp only [writerOk] at hw
    refine ⟨?_, ?_, ?_⟩
    · simp only [atomic_fetch_add_seq, hseq]; omega
    · simp only [writerOk, atomic_fetch_add_seq]
      refine ⟨by omega, by simp, fun j hj => absurd hj (Nat.not_lt_zero j)⟩
    · cases hrpc : s.rpc with
      | start => simp [readerOk]
      | copy k =>
        rw [hrpc] at hr
        simp only [readerOk] at hr ⊢
        exact ⟨hr.1, by omega, hr.2.2.1, fun he => by omega⟩
      | done =>
        rw [hrpc] at hr
        simp only [readerOk] at hr ⊢
        intro hb
        exact List.mem_append_left _ (hr hb)
  | copy k src0 =>
    rw [hwpc] at hw
    simp only [writerOk] at hw
    obtain ⟨hodd, hmem, hbytes⟩ := hw
    by_cases hk : k < PSXInputState.size
    · simp only [hk, if_true]
      refine ⟨hseq, ?_, ?_⟩
      · simp only [writerOk, memcpy_byte]
        refine ⟨hodd, hmem, fun j hj hj8 => ?_⟩
        rw [byte_setByte]
        by_cases hjk : j = k
        · subst hjk; simp [hj8]
        · simp only [hjk, false_and, if_false]
          exact hbytes j (by omega) hj8
      · cases hrpc : s.rpc with
        | start => simp [readerOk]
        | copy k1 =>
          rw [hrpc] at hr
          simp only [readerOk] at hr ⊢
          exact ⟨hr.1, hr.2.1, hr.2.2.1, fun he => by omega⟩
        | done =>
          rw [hrpc] at hr
          simpa only [readerOk] using hr
    · simp only [hk, if_false]
      have hdata : s.b.data = src0 :=
        ext_bytes _ _ (fun j hj => hbytes j (by simp only [PSXInputState.size] at hk; omega) hj)
      refine ⟨?_, ?_, ?_⟩
      · simp only [atomic_fetch_add_seq, hseq]; omega
      · simp only [writerOk, atomic_fetch_add_seq]
        exact ⟨by omega, hdata ▸ hmem⟩
      · cases hrpc : s.rpc with
        | start => simp [readerOk]
        | copy k1 =>
          rw [hrpc] at hr
          simp only [readerOk] at hr ⊢
          exact ⟨hr.1, by omega, hr.2.2.1, fun he => by omega⟩
        | done =>
          rw [hrpc] at hr
          simpa only [readerOk] using hr

theorem writerOk_of_reader (s t : Conc) (hw : t.wpc = s.wpc) (hi : t.incs = s.incs)
    (hb : t.b = s.b) (hs : t.sent = s.sent) (h : writerOk s.wpc s.incs s.b.data s.sent) :
    writerOk t.wpc t.incs t.b.data t.sent := by
  rw [hw, hi, hb, hs]; exact h

theorem inv_readerStep (s : Conc) (h : Inv s) : Inv (readerStep s) := by
  obtain ⟨hseq, hw, hr⟩ := h
  unfold readerStep
  cases hrpc : s.rpc with
  | start =>
    by_cases hodd : s.b.seq &&& 1 ≠ 0
    · rw [if_pos hodd]
      exact ⟨hseq, hw, by simp [readerOk, hrpc]⟩
    · rw [if_neg hodd]
      refine ⟨hseq, hw, ?_⟩
      simp only [readerOk]
      rw [Nat.and_one_is_mod] at hodd
      simp only [ne_eq, Decidable.not_not] at hodd
      refine ⟨by omega, le_refl _, hseq, fun _ j hj => absurd hj (Nat.not_lt_zero j)⟩
  | copy k =>
    rw [hrpc] at hr
    simp only [readerOk] at hr
    obtain ⟨hc1, hle, hv1, hbytes⟩ := hr
    by_cases hk : k < PSXInputState.size
    · simp only [hk, if_true]
      refine ⟨hseq, hw, ?_⟩
      simp only [readerOk, memcpy_byte]
      refine ⟨hc1, hle, hv1, fun he j hj hj8 => ?_⟩
      rw [byte_setByte]
      by_cases hjk : j = k
      · subst hjk; simp [hj8]
      · simp only [hjk, false_and, if_false]
        exact hbytes he j (by omega) hj8
    · simp only [hk, if_false]
      by_cases hv : s.v1 = s.b.seq
      · simp only [hv, if_true]
        refine ⟨hseq, hw, ?_⟩
        simp only [readerOk]
        intro hbound
        have heq : s.incs = s.c1 := by omega
        have hdata : s.dst = s.b.data :=
          ext_bytes _ _ (fun j hj =>
            hbytes heq j (by simp only [PSXInputState.size] at hk; omega) hj)
        rw [hdata]
        cases hwpc : s.wpc with
        | idle =>
          rw [hwpc] at hw
          exact hw.2
        | copy k0 src0 =>
          rw [hwpc] at hw
          have := hw.1
          omega
      · simp only [hv, if_false]
        exact ⟨hseq, hw, by simp [readerOk]⟩
  | done => exact ⟨hseq, hw, by simp [readerOk]⟩

theorem inv_step (s : Conc) (c : Core) (h : Inv s) : Inv (step s c) := by
  cases c with
  | writer src => exact inv_writerStep src s h
  | reader => exact inv_readerStep s h

theorem inv_run (sched : List Core) (s : Conc) (h : Inv s) : Inv (run sched s) := by
  induction sched generalizing s with
  | nil => exact h
  | cons c cs ih => exact ih _ (inv_step s c h)

/-- C1, amended: in every interleaving of the writer and the reader from
`psx_shared_init`, a read that has returned after fewer than 2^32 increments of
`seq` (2^31 writes) took place between its two loads of `seq` holds in `dst` the
full snapshot of one single write call, or the initial contents. -/
theorem torn_free_within_wrap (b0 : PSXSharedBuffer) (d0 : PSXInputState) (sched : List Core)
    (hdone : (run sched (Conc.init b0 d0)).rpc = ReaderPc.done)
    (hbound : (run sched (Conc.init b0 d0)).c2 - (run sched (Conc.init b0 d0)).c1 < 2 ^ 32) :
    (run sched (Conc.init b0 d0)).dst ∈ (run sched (Conc.init b0 d0)).sent := by
  have h := (inv_run sched _ (inv_init b0 d0)).2.2
  rw [hdone] at h
  exact h hbound

/-! ## The interleaved machine: a torn read after the counter wraps -/

theorem run_append (xs ys : List Core) (s : Conc) : run (xs ++ ys) s = run ys (run xs s) := by
  simp [run, List.foldl_append]

theorem run_full_write (src : PSXInputState) (s : Conc) (h : s.wpc = WriterPc.idle) :
    run (List.replicate 10 (Core.writer src)) s =
      { s with b := psx_shared_write s.b src, incs := s.incs + 2, sent := s.sent ++ [src] } := by
  simp [run, List.replicate, step, writerStep, h, PSXInputState.size, psx_shared_write,
    psx_shared_write_copied, psx_shared_write_begin, atomic_fetch_add_seq, memcpy, memcpy_byte,
    List.range, List.range.loop]

theorem run_many_writes (src : PSXInputState) (n : Nat) (s : Conc) (h : s.wpc = WriterPc.idle)
    (hb : s.b.seq < 2 ^ 32) :
    (run (List.replicate (10 * n) (Core.writer src)) s).wpc = WriterPc.idle ∧
    (run (List.replicate (10 * n) (Core.writer src)) s).b.seq = (s.b.seq + 2 * n) % 2 ^ 32 ∧
    (0 < n → (run (List.replicate (10 * n) (Core.writer src)) s).b.data = src) ∧
    (run (List.replicate (10 * n) (Core.writer src)) s).rpc = s.rpc ∧
    (run (List.replicate (10 * n) (Core.writer src)) s).v1 = s.v1 ∧
    (run (List.replicate (10 * n) (Core.writer src)) s).dst = s.dst ∧
    (∀ y ∈ (run (List.replicate (10 * n) (Core.writer src)) s).sent, y ∈ s.sent ∨ y = src) := by
  induction n with
  | zero =>
    refine ⟨h, ?_, fun h0 => absurd h0 (Nat.lt_irrefl 0), rfl, rfl, rfl, fun y hy => Or.inl hy⟩
    show s.b.seq = (s.b.seq + 2 * 0) % 2 ^ 32
    omega
  | succ n ih =>
    obtain ⟨hw, hseq, -, hr, hv, hd, hs⟩ := ih
    have e : 10 * (n + 1) = 10 * n + 10 := by omega
    rw [e, List.replicate_add, run_append, run_full_write src _ hw]
    refine ⟨hw, ?_, fun _ => write_data _ src, hr, hv, hd, ?_⟩
    · simp only [write_seq, hseq]
      omega
    · intro y hy
      rcases List.mem_append.mp hy with hy | hy
      · exact hs y hy
      · exact Or.inr (by simpa using hy)

theorem run_reader_tail (s : Conc) (hr : s.rpc = ReaderPc.copy 1) (hv : s.v1 = s.b.seq) :
    (run (List.replicate 8 Core.reader) s).rpc = ReaderPc.done ∧
    (run (List.replicate 8 Core.reader) s).dst =
      ⟨s.dst.buttons1, s.b.data.buttons2, s.b.data.lx, s.b.data.ly, s.b.data.rx, s.b.data.ry,
        s.b.data.l2, s.b.data.r2⟩ ∧
    (run (List.replicate 8 Core.reader) s).sent = s.sent := by
  simp [run, List.replicate, step, readerStep, hr, hv, PSXInputState.size, memcpy_byte,
    PSXInputState.setByte, PSXInputState.byte]

/-- C1, as stated, fails: when 2^31 writes complete between the reader's two
loads of `seq`, the 32-bit counter is back at the value of `v1`, the read
returns, and `dst` holds the first byte of the initial contents next to seven
bytes of the last write, which is no snapshot that was sent. -/
theorem torn_read_after_wrap :
    (run wrapSchedule wrapStart).rpc = ReaderPc.done ∧
    (run wrapSchedule wrapStart).dst = ⟨0xFF, 2, 3, 4, 5, 6, 7, 8⟩ ∧
    (run wrapSchedule wrapStart).dst ∉ (run wrapSchedule wrapStart).sent := by
  unfold wrapSchedule
  rw [run_append, run_append]
  have h2w : (run [Core.reader, Core.reader] wrapStart).wpc = WriterPc.idle := rfl
  have h2b : (run [Core.reader, Core.reader] wrapStart).b.seq = 0 := rfl
  obtain ⟨-, hseq, hdata, hrpc, hv1, hdst, hsent⟩ :=
    run_many_writes wrapSnapshot (2 ^ 31) (run [Core.reader, Core.reader] wrapStart) h2w
      (by rw [h2b]; decide)
  have hseq0 : (run (List.replicate (10 * 2 ^ 31) (Core.writer wrapSnapshot))
      (run [Core.reader, Core.reader] wrapStart)).b.seq = 0 := by
    rw [hseq, h2b]
    norm_num
  have hdata1 := hdata (by decide)
  obtain ⟨tr, td, ts⟩ := run_reader_tail _ (hrpc.trans rfl) (by rw [hv1, hseq0]; rfl)
  rw [hdata1, hdst] at td
  have hd : (run (List.replicate 8 Core.reader)
      (run (List.replicate (10 * 2 ^ 31) (Core.writer wrapSnapshot))
        (run [Core.reader, Core.reader] wrapStart))).dst = ⟨0xFF, 2, 3, 4, 5, 6, 7, 8⟩ := td
  refine ⟨tr, hd, ?_⟩
  rw [hd, ts]
  intro hmem
  rcases hsent _ hmem with h | h
  · have : (run [Core.reader, Core.reader] wrapStart).sent =
        [⟨0xFF, 0xFF, 0xFF, 0xFF, 0xFF, 0xFF, 0xFF, 0xFF⟩] := rfl
    rw [this] at h
    exact absurd h (by decide)
  · exact absurd h (by decide)

theorem torn_free_within_wrap_witness :
    (run retrySchedule wrapStart).rpc = ReaderPc.done ∧
    (run retrySchedule wrapStart).c2 - (run retrySchedule wrapStart).c1 < 2 ^ 32 ∧
    (run retrySchedule wrapStart).dst ∈ (run retrySchedule wrapStart).sent :=
  ⟨by decide, by decide,
    torn_free_within_wrap ⟨0, ⟨0, 0, 0, 0, 0, 0, 0, 0⟩⟩ ⟨0, 0, 0, 0, 0, 0, 0, 0⟩ retrySchedule
      (by decide) (by decide)⟩


/-! ## The status LED: single calls -/

theorem sub_u32_of_le (a b : Nat) (hab : b ≤ a) (ha : a < 2 ^ 32) : sub_u32 a b = a - b := by
  unfold sub_u32
  have hb : b < 2 ^ 32 := by omega
  rw [Nat.mod_eq_of_lt ha, Nat.mod_eq_of_lt hb]
  omega

theorem set_status_same (u : Nat) (w : LedWorld) :
    psx_led_set_status u w.g_led_ctx.current_status w = w := by
  simp [psx_led_set_status]

theorem set_status_change (u : Nat) (s : psx_led_status_t) (w : LedWorld)
    (h : w.g_led_ctx.current_status ≠ s) :
    psx_led_set_status u s w =
      { g_led_ctx := ⟨u / 1000, s, 0, 0, false⟩, pin := false, writes := w.writes ++ [false] } := by
  simp [psx_led_set_status, h, gpio_put]

theorem set_status_status (u : Nat) (s : psx_led_status_t) (w : LedWorld) :
    (psx_led_set_status u s w).g_led_ctx.current_status = s := by
  by_cases h : w.g_led_ctx.current_status = s
  · subst h; rw [set_status_same]
  · rw [set_status_change u s w h]

theorem led_toggle_eq (now : Nat) (w : LedWorld) :
    led_toggle now w =
      { g_led_ctx := { w.g_led_ctx with last_update_ms := now, led_on := !w.g_led_ctx.led_on },
        pin := !w.g_led_ctx.led_on, writes := w.writes ++ [!w.g_led_ctx.led_on] } := rfl

theorem led_pause_end_eq (now : Nat) (w : LedWorld) :
    led_pause_end now w =
      { g_led_ctx := { w.g_led_ctx with last_update_ms := now, flash_count := 0, led_on := false },
        pin := false, writes := w.writes ++ [false] } := rfl

theorem count_flash_eq (w : LedWorld) :
    count_flash w =
      { w with g_led_ctx := { w.g_led_ctx with
          flash_count := if w.g_led_ctx.led_on then w.g_led_ctx.flash_count
                         else (w.g_led_ctx.flash_count + 1) % 256 } } := by
  obtain ⟨⟨l, s, fc, fi, lit⟩, pin, ws⟩ := w
  cases lit <;> simp [count_flash]

theorem count_ready_eq (w : LedWorld) :
    count_ready w =
      { w with g_led_ctx := { w.g_led_ctx with
          flash_count := if w.g_led_ctx.led_on then w.g_led_ctx.flash_count else 0 } } := by
  obtain ⟨⟨l, s, fc, fi, lit⟩, pin, ws⟩ := w
  cases lit
  · by_cases h1 : (fc + 1) % 256 ≥ 1
    · simp [count_ready, h1]
    · have h0 : (fc + 1) % 256 = 0 := by omega
      simp [count_ready, h0]
  · simp [count_ready]

theorem update_status (u : Nat) (w : LedWorld) :
    (psx_led_update u w).g_led_ctx.current_status = w.g_led_ctx.current_status := by
  unfold psx_led_update
  cases h : w.g_led_ctx.current_status <;>
    simp only [led_blink, led_toggle_eq, led_pause_end_eq, count_flash_eq, count_ready_eq,
      gpio_put] <;>
    split_ifs <;> simp [h]

theorem update_unchanged_or_one_write (u : Nat) (w : LedWorld) :
    psx_led_update u w = w ∨
    ((psx_led_update u w).writes = w.writes ++ [(psx_led_update u w).g_led_ctx.led_on] ∧
      (psx_led_update u w).pin = (psx_led_update u w).g_led_ctx.led_on) := by
  unfold psx_led_update
  cases h : w.g_led_ctx.current_status <;>
    simp only [led_blink, led_toggle_eq, led_pause_end_eq, count_flash_eq, count_ready_eq,
      gpio_put] <;>
    split_ifs <;> simp

theorem set_status_unchanged_or_one_write (u : Nat) (s : psx_led_status_t) (w : LedWorld) :
    psx_led_set_status u s w = w ∨
    ((psx_led_set_status u s w).writes = w.writes ++ [(psx_led_set_status u s w).g_led_ctx.led_on] ∧
      (psx_led_set_status u s w).pin = (psx_led_set_status u s w).g_led_ctx.led_on) := by
  by_cases h : w.g_led_ctx.current_status = s
  · subst h; exact Or.inl (set_status_same u w)
  · rw [set_status_change u s w h]; exact Or.inr ⟨rfl, rfl⟩

theorem pin_follows_step (w : LedWorld) (c : LedCall) (h : w.pin = w.g_led_ctx.led_on) :
    (ledStep w c).pin = (ledStep w c).g_led_ctx.led_on := by
  cases c with
  | set_status t s =>
    rcases set_status_unchanged_or_one_write t s w with e | e
    · simp only [ledStep, e]; exact h
    · exact e.2
  | update t =>
    rcases update_unchanged_or_one_write t w with e | e
    · simp only [ledStep, e]; exact h
    · exact e.2

theorem pin_follows_run (calls : List LedCall) (w : LedWorld) (h : w.pin = w.g_led_ctx.led_on) :
    (runLed calls w).pin = (runLed calls w).g_led_ctx.led_on := by
  induction calls generalizing w with
  | nil => exact h
  | cons c cs ih => exact ih _ (pin_follows_step w c h)

theorem ledInv_init (w : LedWorld) : LedInv (psx_led_init w).g_led_ctx := by
  simp [LedInv, psx_led_init]

theorem ledInv_set_status (u : Nat) (s : psx_led_status_t) (w : LedWorld)
    (h : LedInv w.g_led_ctx) : LedInv (psx_led_set_status u s w).g_led_ctx := by
  by_cases hs : w.g_led_ctx.current_status = s
  · subst hs; rw [set_status_same]; exact h
  · rw [set_status_change u s w hs]
    cases s <;> simp [LedInv]

theorem ledInv_update (u : Nat) (w : LedWorld) (h : LedInv w.g_led_ctx) :
    LedInv (psx_led_update u w).g_led_ctx := by
  obtain ⟨⟨l, s, fc, fi, lit⟩, pin, ws⟩ := w
  unfold LedInv at h ⊢
  unfold psx_led_update
  cases s <;> cases lit <;>
    simp only [led_blink, led_toggle_eq, led_pause_end_eq, count_flash_eq, count_ready_eq,
      gpio_put] at h ⊢ <;>
    split_ifs <;> simp_all <;> omega

theorem ledInv_step (w : LedWorld) (c : LedCall) (h : LedInv w.g_led_ctx) :
    LedInv (ledStep w c).g_led_ctx := by
  cases c with
  | set_status t s => exact ledInv_set_status t s w h
  | update t => exact ledInv_update t w h

theorem ledInv_run (calls : List LedCall) (w : LedWorld) (h : LedInv w.g_led_ctx) :
    LedInv (runLed calls w).g_led_ctx := by
  induction calls generalizing w with
  | nil => exact h
  | cons c cs ih => exact ih _ (ledInv_step w c h)

/-! ## The status LED: properties of single calls and of reachable states -/

/-- C11: what `psx_shared_init` does: `seq` is 0 and every byte of the
snapshot is 0xFF, the two button bytes and also the four stick fields and the
two trigger fields; the stick fields are not 0x80 and the snapshot is not the
released default that `main` stores. -/
theorem shared_init_all_ff (b : PSXSharedBuffer) (s0 : PSXInputState) :
    (psx_shared_init b).seq = 0 ∧
    (psx_shared_init b).data = ⟨0xFF, 0xFF, 0xFF, 0xFF, 0xFF, 0xFF, 0xFF, 0xFF⟩ ∧
    (psx_shared_init b).data.lx ≠ 0x80 ∧ (psx_shared_init b).data.ly ≠ 0x80 ∧
    (psx_shared_init b).data.rx ≠ 0x80 ∧ (psx_shared_init b).data.ry ≠ 0x80 ∧
    (psx_shared_init b).data.l2 ≠ 0x00 ∧ (psx_shared_init b).data.r2 ≠ 0x00 ∧
    (psx_shared_init b).data ≠ main_init_state s0 := by
  have hd : (psx_shared_init b).data = ⟨0xFF, 0xFF, 0xFF, 0xFF, 0xFF, 0xFF, 0xFF, 0xFF⟩ :=
    memset_ff b.data
  rw [hd]
  refine ⟨rfl, rfl, by decide, by decide, by decide, by decide, by decide, by decide, ?_⟩
  intro h
  have h2 : (0xFF : Nat) = 0x80 := congrArg PSXInputState.lx h
  exact absurd h2 (by decide)

/-- C12: calling `psx_led_set_status(s)` a second time, at any time, gives the
world of the first call alone; and a call with the status already current
leaves the context, the output line and the list of writes as they were. -/
theorem set_status_idempotent (w : LedWorld) (s : psx_led_status_t) (t1 t2 : Nat) :
    psx_led_set_status t2 s (psx_led_set_status t1 s w) = psx_led_set_status t1 s w ∧
    psx_led_set_status t1 w.g_led_ctx.current_status w = w := by
  refine ⟨?_, set_status_same t1 w⟩
  have h := set_status_same t2 (psx_led_set_status t1 s w)
  rw [set_status_status] at h
  exact h

/-- C13: `psx_led_update` never changes `current_status`; and a call of
`psx_led_set_status` with a status other than the current one yields that
status, `flash_count` 0, `flash_index` 0, the LED flag off, `last_update_ms`
the millisecond time of the call, and writes 0 to the output line. -/
theorem set_status_resets (w : LedWorld) (s : psx_led_status_t) (t : Nat)
    (h : s ≠ w.g_led_ctx.current_status) :
    (∀ (u : Nat) (x : LedWorld),
      (psx_led_update u x).g_led_ctx.current_status = x.g_led_ctx.current_status) ∧
    (psx_led_set_status t s w).g_led_ctx = ⟨t / 1000, s, 0, 0, false⟩ ∧
    (psx_led_set_status t s w).pin = false ∧
    (psx_led_set_status t s w).writes = w.writes ++ [false] := by
  rw [set_status_change t s w (Ne.symm h)]
  exact ⟨update_status, rfl, rfl, rfl⟩

theorem set_status_resets_witness :
    psx_led_status_t.PSX_LED_POLL ≠ scratchLed.g_led_ctx.current_status ∧
    (psx_led_set_status 123456 psx_led_status_t.PSX_LED_POLL scratchLed).g_led_ctx =
      ⟨123, psx_led_status_t.PSX_LED_POLL, 0, 0, false⟩ ∧
    (psx_led_set_status 123456 psx_led_status_t.PSX_LED_POLL scratchLed).pin = false ∧
    (psx_led_set_status 123456 psx_led_status_t.PSX_LED_POLL scratchLed).writes = [false] :=
  ⟨by decide,
    (set_status_resets scratchLed psx_led_status_t.PSX_LED_POLL 123456 (by decide)).2⟩

/-- C17: `psx_led_init` yields status IDLE with the LED off; in IDLE, on a
world whose output line agrees with the LED flag, `psx_led_update` leaves the
flag false, the line at 0 and the other fields unchanged; and from
`psx_led_init` the line stays at 0 through any sequence of update calls at any
times. -/
theorem idle_holds_off (w0 w : LedWorld) (u : Nat) (times : List Nat)
    (hidle : w.g_led_ctx.current_status = psx_led_status_t.PSX_LED_IDLE)
    (hpin : w.pin = w.g_led_ctx.led_on) :
    ((psx_led_init w0).g_led_ctx.current_status = psx_led_status_t.PSX_LED_IDLE ∧
      (psx_led_init w0).g_led_ctx.led_on = false ∧ (psx_led_init w0).pin = false) ∧
    ((psx_led_update u w).g_led_ctx.led_on = false ∧ (psx_led_update u w).pin = false ∧
      (psx_led_update u w).g_led_ctx.current_status = w.g_led_ctx.current_status ∧
      (psx_led_update u w).g_led_ctx.flash_count = w.g_led_ctx.flash_count ∧
      (psx_led_update u w).g_led_ctx.flash_index = w.g_led_ctx.flash_index ∧
      (psx_led_update u w).g_led_ctx.last_update_ms = w.g_led_ctx.last_update_ms) ∧
    ((runLed (times.map LedCall.update) (psx_led_init w0)).pin = false ∧
      (runLed (times.map LedCall.update) (psx_led_init w0)).g_led_ctx.led_on = false ∧
      (runLed (times.map LedCall.update) (psx_led_init w0)).g_led_ctx.current_status =
        psx_led_status_t.PSX_LED_IDLE) := by
  refine ⟨⟨rfl, rfl, rfl⟩, ?_, ?_⟩
  · obtain ⟨⟨l, s, fc, fi, lit⟩, pin, ws⟩ := w
    simp only at hidle hpin
    subst hidle
    subst hpin
    cases pin <;> simp [psx_led_update, gpio_put]
  · have key : ∀ (ts : List Nat) (x : LedWorld),
        x.g_led_ctx.current_status = psx_led_status_t.PSX_LED_IDLE →
        x.g_led_ctx.led_on = false → x.pin = false →
        (runLed (ts.map LedCall.update) x).pin = false ∧
        (runLed (ts.map LedCall.update) x).g_led_ctx.led_on = false ∧
        (runLed (ts.map LedCall.update) x).g_led_ctx.current_status =
          psx_led_status_t.PSX_LED_IDLE := by
      intro ts
      induction ts with
      | nil => intro x h1 h2 h3; exact ⟨h3, h2, h1⟩
      | cons t ts ih =>
        intro x h1 h2 h3
        have hx : psx_led_update t x = x := by
          simp [psx_led_update, h1, h2]
        simp only [List.map_cons, runLed, List.foldl_cons, ledStep, hx]
        exact ih x h1 h2 h3
    exact key times _ rfl rfl rfl

theorem idle_holds_off_witness :
    bootLed.g_led_ctx.current_status = psx_led_status_t.PSX_LED_IDLE ∧
    bootLed.pin = bootLed.g_led_ctx.led_on ∧
    (psx_led_update 250000 bootLed).pin = false ∧
    (runLed ([1000, 250000, 4294967295, 3].map LedCall.update) (psx_led_init scratchLed)).pin = false :=
  have h := idle_holds_off scratchLed bootLed 250000 [1000, 250000, 4294967295, 3]
    (by decide) (by decide)
  ⟨by decide, by decide, h.2.1.2.1, h.2.2.1⟩

/-- C18: a call of `psx_led_update` or of `psx_led_set_status` appends at most
one value to the writes of the output line, and a value it writes is the LED
flag of the resulting context and the new level of the line; in every state
reached from `psx_led_init` the level of the line equals the LED flag. -/
theorem one_write_per_call (w0 w : LedWorld) (u : Nat) (s : psx_led_status_t)
    (calls : List LedCall) :
    (∃ l, (psx_led_update u w).writes = w.writes ++ l ∧ l.length ≤ 1 ∧
      ∀ v ∈ l, v = (psx_led_update u w).g_led_ctx.led_on ∧ (psx_led_update u w).pin = v) ∧
    (∃ l, (psx_led_set_status u s w).writes = w.writes ++ l ∧ l.length ≤ 1 ∧
      ∀ v ∈ l, v = (psx_led_set_status u s w).g_led_ctx.led_on ∧
        (psx_led_set_status u s w).pin = v) ∧
    (runLed calls (psx_led_init w0)).pin = (runLed calls (psx_led_init w0)).g_led_ctx.led_on := by
  refine ⟨?_, ?_, pin_follows_run calls _ rfl⟩
  · rcases update_unchanged_or_one_write u w with e | e
    · exact ⟨[], by rw [e]; simp, by simp, by simp⟩
    · refine ⟨[(psx_led_update u w).g_led_ctx.led_on], e.1, by simp, ?_⟩
      intro v hv
      simp only [List.mem_singleton] at hv
      subst hv
      exact ⟨rfl, e.2⟩
  · rcases set_status_unchanged_or_one_write u s w with e | e
    · exact ⟨[], by rw [e]; simp, by simp, by simp⟩
    · refine ⟨[(psx_led_set_status u s w).g_led_ctx.led_on], e.1, by simp, ?_⟩
      intro v hv
      simp only [List.mem_singleton] at hv
      subst hv
      exact ⟨rfl, e.2⟩

/-- C19: in every state reached from `psx_led_init` by calls of
`psx_led_set_status` and `psx_led_update` at any times, `flash_index` is 0,
`flash_count` is 0 in IDLE, READY and ERROR, at most 2 in POLL and at most 3 in
CONFIG (so below 256), the LED flag is off in IDLE, and it is off in the pause
phase of POLL and CONFIG. -/
theorem led_reachable_invariant (w0 : LedWorld) (calls : List LedCall) :
    LedInv (runLed calls (psx_led_init w0)).g_led_ctx ∧
    (runLed calls (psx_led_init w0)).g_led_ctx.flash_count ≤ 3 := by
  have h := ledInv_run calls _ (ledInv_init w0)
  refine ⟨h, ?_⟩
  unfold LedInv at h
  cases hs : (runLed calls (psx_led_init w0)).g_led_ctx.current_status <;>
    simp only [hs] at h <;> omega

/-! ## The status LED: timing -/

theorem sub_u32_add_left (b d : Nat) : sub_u32 (b + d) b = d % 2 ^ 32 := by
  unfold sub_u32
  omega

theorem runLed_append (xs ys : List LedCall) (w : LedWorld) :
    runLed (xs ++ ys) w = runLed ys (runLed xs w) := by
  simp [runLed, List.foldl_append]

theorem runLed_tick_succ (u0 n : Nat) (w : LedWorld) :
    runLed (tickEachMs u0 (n + 1)) w =
      psx_led_update ((u0 + 1000 * (n + 1)) % 2 ^ 32) (runLed (tickEachMs u0 n) w) := by
  simp [tickEachMs, runLed_append, runLed, ledStep]

theorem tick_elapsed (u0 k : Nat) (hb : u0 + 1000 * k < 2 ^ 32) :
    sub_u32 ((u0 + 1000 * k) % 2 ^ 32 / 1000) (u0 / 1000) = k := by
  have e : (u0 + 1000 * k) / 1000 = u0 / 1000 + k := by omega
  rw [Nat.mod_eq_of_lt hb, e, sub_u32_add_left]
  omega

theorem toggle_update (u : Nat) (w : LedWorld)
    (hs : w.g_led_ctx.current_status = psx_led_status_t.PSX_LED_READY ∨
      w.g_led_ctx.current_status = psx_led_status_t.PSX_LED_ERROR) :
    (toggleThreshold w.g_led_ctx.current_status ≤ sub_u32 (u / 1000) w.g_led_ctx.last_update_ms →
      (psx_led_update u w).g_led_ctx.led_on = (!w.g_led_ctx.led_on) ∧
      (psx_led_update u w).pin = (!w.g_led_ctx.led_on) ∧
      (psx_led_update u w).writes = w.writes ++ [!w.g_led_ctx.led_on] ∧
      (psx_led_update u w).g_led_ctx.last_update_ms = u / 1000) ∧
    (sub_u32 (u / 1000) w.g_led_ctx.last_update_ms < toggleThreshold w.g_led_ctx.current_status →
      psx_led_update u w = w) := by
  obtain ⟨⟨l, s, fc, fi, lit⟩, pin, ws⟩ := w
  simp only at hs
  rcases hs with hs | hs <;> subst hs <;>
    simp only [psx_led_update, toggleThreshold, led_toggle_eq, count_ready_eq, gpio_put] <;>
    constructor <;> intro h
  · rw [if_pos h]; exact ⟨rfl, rfl, rfl, rfl⟩
  · rw [if_neg (by omega)]
  · rw [if_pos h]; exact ⟨rfl, rfl, rfl, rfl⟩
  · rw [if_neg (by omega)]

theorem toggleThreshold_pos_lt (s : psx_led_status_t)
    (hs : s = psx_led_status_t.PSX_LED_READY ∨ s = psx_led_status_t.PSX_LED_ERROR) :
    0 < toggleThreshold s ∧ toggleThreshold s < 2 ^ 32 := by
  rcases hs with hs | hs <;> subst hs <;> simp [toggleThreshold]

theorem ticks_below_threshold (w : LedWorld) (u0 n : Nat)
    (hs : w.g_led_ctx.current_status = psx_led_status_t.PSX_LED_READY ∨
      w.g_led_ctx.current_status = psx_led_status_t.PSX_LED_ERROR)
    (h0 : u0 / 1000 = w.g_led_ctx.last_update_ms) (hb : u0 + 1000 * n < 2 ^ 32)
    (hn : n < toggleThreshold w.g_led_ctx.current_status) :
    runLed (tickEachMs u0 n) w = w := by
  induction n with
  | zero => rfl
  | succ n ih =>
    rw [runLed_tick_succ, ih (by omega) (by omega)]
    apply (toggle_update _ w hs).2
    rw [← h0, tick_elapsed u0 (n + 1) hb]
    exact hn

theorem half_cycle_without_wrap (w : LedWorld) (u0 : Nat)
    (hs : w.g_led_ctx.current_status = psx_led_status_t.PSX_LED_READY ∨
      w.g_led_ctx.current_status = psx_led_status_t.PSX_LED_ERROR)
    (h0 : u0 / 1000 = w.g_led_ctx.last_update_ms)
    (hb : u0 + 1000 * toggleThreshold w.g_led_ctx.current_status < 2 ^ 32) :
    (runLed (tickEachMs u0 (toggleThreshold w.g_led_ctx.current_status)) w).pin =
      (!w.g_led_ctx.led_on) ∧
    (runLed (tickEachMs u0 (toggleThreshold w.g_led_ctx.current_status)) w).g_led_ctx.led_on =
      (!w.g_led_ctx.led_on) ∧
    (runLed (tickEachMs u0 (toggleThreshold w.g_led_ctx.current_status)) w).writes =
      w.writes ++ [!w.g_led_ctx.led_on] ∧
    (runLed (tickEachMs u0
        (toggleThreshold w.g_led_ctx.current_status)) w).g_led_ctx.last_update_ms =
      w.g_led_ctx.last_update_ms + toggleThreshold w.g_led_ctx.current_status := by
  have hp := toggleThreshold_pos_lt _ hs
  obtain ⟨m, hm⟩ : ∃ m, toggleThreshold w.g_led_ctx.current_status = m + 1 :=
    ⟨toggleThreshold w.g_led_ctx.current_status - 1, by omega⟩
  have hel := tick_elapsed u0 (m + 1) (by omega)
  rw [h0] at hel
  have ht := (toggle_update ((u0 + 1000 * (m + 1)) % 2 ^ 32) w hs).1 (by omega)
  rw [hm, runLed_tick_succ, ticks_below_threshold w u0 m hs h0 (by omega) (by omega)]
  refine ⟨ht.2.1, ht.1, ht.2.2.1, ?_⟩
  rw [ht.2.2.2]
  omega

/-- C15: what the code does with a tick every millisecond when the 32-bit
microsecond timer wraps inside a half-cycle.  In READY the LED is switched on
at timer value 4294967000; the tick 1 ms later finds the timer at 704 and
switches the LED off again, a half-cycle of 1 ms instead of 200 ms.  In ERROR
the same happens, a half-cycle of 1 ms instead of 50 ms. -/
theorem half_cycle_cut_at_timer_wrap :
    (wrapReadyLed.g_led_ctx = ⟨4294967, psx_led_status_t.PSX_LED_READY, 0, 0, true⟩ ∧
      wrapReadyLed.pin = true) ∧
    tickEachMs 4294967000 1 = [LedCall.update 704] ∧
    (runLed (tickEachMs 4294967000 1) wrapReadyLed).pin = false ∧
    (wrapErrorLed.g_led_ctx = ⟨4294967, psx_led_status_t.PSX_LED_ERROR, 0, 0, true⟩ ∧
      wrapErrorLed.pin = true) ∧
    (runLed (tickEachMs 4294967000 1) wrapErrorLed).pin = false := by
  decide

theorem elapsed_without_wrap (u0 u1 : Nat) (h01 : u0 ≤ u1) (h1 : u1 < 2 ^ 32) :
    (u1 - u0) / 1000 ≤ sub_u32 (u1 / 1000) (u0 / 1000) ∧
    sub_u32 (u1 / 1000) (u0 / 1000) ≤ (u1 - u0) / 1000 + 1 := by
  unfold sub_u32
  omega

theorem elapsed_with_wrap (u0 u1 : Nat) (h0 : u0 < 2 ^ 32) (h10 : u1 < u0) :
    ¬ (sub_u32 (u1 / 1000) (u0 / 1000) ≤ (u1 + 2 ^ 32 - u0) % 2 ^ 32 / 1000 + 1 ∧
      (u1 + 2 ^ 32 - u0) % 2 ^ 32 / 1000 ≤ sub_u32 (u1 / 1000) (u0 / 1000) + 1) := by
  unfold sub_u32
  omega

/-- C20: what the code does when the 32-bit microsecond timer wraps between
two readings: READY is requested, the LED is switched on at timer value
4294967000, and the tick at timer value 704, which is 1000 microseconds
later, computes an elapsed time of 4290672329 ms and switches the LED off
again, after 1 ms instead of 200 ms. -/
theorem elapsed_breaks_at_timer_wrap :
    (704 + 2 ^ 32 - 4294967000) % 2 ^ 32 = 1000 ∧
    sub_u32 (704 / 1000) (4294967000 / 1000) = 4290672329 ∧
    (ledStates [LedCall.set_status 4294767000 psx_led_status_t.PSX_LED_READY,
        LedCall.update 4294967000, LedCall.update 704] bootLed).map (fun x => x.pin) =
      [false, true, false] := by
  decide

theorem led_blink_explicit (blinks now elapsed l fc fi : Nat) (st : psx_led_status_t)
    (lit pin : Bool) (ws : List Bool) :
    led_blink blinks now elapsed ⟨⟨l, st, fc, fi, lit⟩, pin, ws⟩ =
      if fc < blinks then
        (if 100 ≤ elapsed then
          ⟨⟨now, st, if lit then (fc + 1) % 256 else fc, fi, !lit⟩, !lit, ws ++ [!lit]⟩
        else ⟨⟨l, st, fc, fi, lit⟩, pin, ws⟩)
      else
        (if 300 ≤ elapsed then ⟨⟨now, st, 0, fi, false⟩, false, ws ++ [false]⟩
        else ⟨⟨l, st, fc, fi, lit⟩, pin, ws⟩) := by
  cases lit <;> simp [led_blink, led_toggle_eq, led_pause_end_eq, count_flash_eq]

theorem update_poll_at (u l d fc fi : Nat) (lit pin : Bool) (ws : List Bool)
    (hn : u / 1000 = l + d) :
    psx_led_update u ⟨⟨l, psx_led_status_t.PSX_LED_POLL, fc, fi, lit⟩, pin, ws⟩ =
      led_blink 2 (l + d) (d % 2 ^ 32)
        ⟨⟨l, psx_led_status_t.PSX_LED_POLL, fc, fi, lit⟩, pin, ws⟩ := by
  simp only [psx_led_update, hn, sub_u32_add_left]

theorem update_config_at (u l d fc fi : Nat) (lit pin : Bool) (ws : List Bool)
    (hn : u / 1000 = l + d) :
    psx_led_update u ⟨⟨l, psx_led_status_t.PSX_LED_CONFIG, fc, fi, lit⟩, pin, ws⟩ =
      led_blink 3 (l + d) (d % 2 ^ 32)
        ⟨⟨l, psx_led_status_t.PSX_LED_CONFIG, fc, fi, lit⟩, pin, ws⟩ := by
  simp only [psx_led_update, hn, sub_u32_add_left]

/-- C14: after `psx_led_set_status(PSX_LED_POLL)` from another status at
millisecond time t0, the updates at t0+100, t0+200, t0+300 and t0+400 put the
line on, off, on, off with `flash_count` reaching 2; the update at t0+700 ends
the pause with the line still off and `flash_count` back at 0, leaving the
context as a status change at t0+700 would; and the update at t0+800 puts
the line on again. -/
theorem polling_pattern (w : LedWorld) (u0 u1 u2 u3 u4 u5 u6 : Nat)
    (hs : w.g_led_ctx.current_status ≠ psx_led_status_t.PSX_LED_POLL)
    (h1 : u1 / 1000 = u0 / 1000 + 100) (h2 : u2 / 1000 = u0 / 1000 + 200)
    (h3 : u3 / 1000 = u0 / 1000 + 300) (h4 : u4 / 1000 = u0 / 1000 + 400)
    (h5 : u5 / 1000 = u0 / 1000 + 700) (h6 : u6 / 1000 = u0 / 1000 + 800) :
    (ledStates [LedCall.update u1, LedCall.update u2, LedCall.update u3, LedCall.update u4,
        LedCall.update u5, LedCall.update u6]
        (psx_led_set_status u0 psx_led_status_t.PSX_LED_POLL w)).map
      (fun x => (x.pin, x.g_led_ctx.flash_count)) =
      [(true, 0), (false, 1), (true, 1), (false, 2), (false, 0), (true, 0)] ∧
    (runLed [LedCall.update u1, LedCall.update u2, LedCall.update u3, LedCall.update u4,
        LedCall.update u5] (psx_led_set_status u0 psx_led_status_t.PSX_LED_POLL w)).g_led_ctx =
      ⟨u5 / 1000, psx_led_status_t.PSX_LED_POLL, 0, 0, false⟩ := by
  rw [set_status_change u0 _ w hs]
  have e1 := update_poll_at u1 (u0 / 1000) 100 0 0 false false (w.writes ++ [false]) h1
  rw [led_blink_explicit] at e1
  simp only [Nat.reduceMod, Nat.reduceLT, Nat.reduceLeDiff, le_refl, if_true, if_false,
    Bool.not_false, Bool.not_true, Bool.false_eq_true, Nat.reduceAdd, Nat.reducePow] at e1
  have e2 := update_poll_at u2 (u0 / 1000 + 100) 100 0 0 true true
    (w.writes ++ [false] ++ [true]) (by omega)
  rw [led_blink_explicit] at e2
  simp only [Nat.reduceMod, Nat.reduceLT, Nat.reduceLeDiff, le_refl, if_true, if_false,
    Bool.not_false, Bool.not_true, Bool.false_eq_true, Nat.reduceAdd, Nat.reducePow,
    Nat.add_assoc] at e2
  have e3 := update_poll_at u3 (u0 / 1000 + 200) 100 1 0 false false
    (w.writes ++ [false] ++ [true] ++ [false]) (by omega)
  rw [led_blink_explicit] at e3
  simp only [Nat.reduceMod, Nat.reduceLT, Nat.reduceLeDiff, le_refl, if_true, if_false,
    Bool.not_false, Bool.not_true, Bool.false_eq_true, Nat.reduceAdd, Nat.reducePow,
    Nat.add_assoc] at e3
  have e4 := update_poll_at u4 (u0 / 1000 + 300) 100 1 0 true true
    (w.writes ++ [false] ++ [true] ++ [false] ++ [true]) (by omega)
  rw [led_blink_explicit] at e4
  simp only [Nat.reduceMod, Nat.reduceLT, Nat.reduceLeDiff, le_refl, if_true, if_false,
    Bool.not_false, Bool.not_true, Bool.false_eq_true, Nat.reduceAdd, Nat.reducePow,
    Nat.add_assoc] at e4
  have e5 := update_poll_at u5 (u0 / 1000 + 400) 300 2 0 false false
    (w.writes ++ [false] ++ [true] ++ [false] ++ [true] ++ [false]) (by omega)
  rw [led_blink_explicit] at e5
  simp only [Nat.reduceMod, Nat.reduceLT, Nat.reduceLeDiff, le_refl, if_true, if_false,
    Bool.not_false, Bool.not_true, Bool.false_eq_true, Nat.reduceAdd, Nat.reducePow,
    Nat.add_assoc, lt_self_iff_false] at e5
  have e6 := update_poll_at u6 (u0 / 1000 + 700) 100 0 0 false false
    (w.writes ++ [false] ++ [true] ++ [false] ++ [true] ++ [false] ++ [false]) (by omega)
  rw [led_blink_explicit] at e6
  simp only [Nat.reduceMod, Nat.reduceLT, Nat.reduceLeDiff, le_refl, if_true, if_false,
    Bool.not_false, Bool.not_true, Bool.false_eq_true, Nat.reduceAdd, Nat.reducePow,
    Nat.add_assoc] at e6
  simp only [ledStates, ledStep, runLed, List.foldl_cons, List.foldl_nil, List.map_cons,
    List.map_nil, e1, e2, e3, e4, e5, e6, h5]
  exact ⟨trivial, trivial⟩

/-- C16: after `psx_led_set_status(PSX_LED_CONFIG)` from another status at
millisecond time t0 and an update every 100 ms, the line goes on, off, on,
off, on, off over the first six ticks with `flash_count` reaching 3; then an
update less than 300 ms after the last toggle changes nothing at all; the
tick at t0+900 puts `flash_count` back to 0 with the line off, leaving the
context as a status change at t0+900 would; and the next six ticks blink three
times again. -/
theorem config_pattern (w : LedWorld) (u0 : Nat) (u : Nat → Nat)
    (hs : w.g_led_ctx.current_status ≠ psx_led_status_t.PSX_LED_CONFIG)
    (hu : ∀ k, u k / 1000 = u0 / 1000 + 100 * k) :
    (ledStates ((List.range' 1 15).map (fun k => LedCall.update (u k)))
        (psx_led_set_status u0 psx_led_status_t.PSX_LED_CONFIG w)).map
      (fun x => (x.pin, x.g_led_ctx.flash_count)) =
      [(true, 0), (false, 1), (true, 1), (false, 2), (true, 2), (false, 3), (false, 3),
       (false, 3), (false, 0), (true, 0), (false, 1), (true, 1), (false, 2), (true, 2),
       (false, 3)] ∧
    (∀ v d : Nat, v / 1000 = u0 / 1000 + 600 + d → d < 300 →
      psx_led_update v (runLed ((List.range' 1 6).map (fun k => LedCall.update (u k)))
          (psx_led_set_status u0 psx_led_status_t.PSX_LED_CONFIG w)) =
        runLed ((List.range' 1 6).map (fun k => LedCall.update (u k)))
          (psx_led_set_status u0 psx_led_status_t.PSX_LED_CONFIG w)) ∧
    (runLed ((List.range' 1 9).map (fun k => LedCall.update (u k)))
        (psx_led_set_status u0 psx_led_status_t.PSX_LED_CONFIG w)).g_led_ctx =
      ⟨u0 / 1000 + 900, psx_led_status_t.PSX_LED_CONFIG, 0, 0, false⟩ := by
  rw [set_status_change u0 _ w hs]
  have r15 : List.range' 1 15 = [1, 2, 3, 4, 5, 6, 7, 8, 9, 10, 11, 12, 13, 14, 15] := rfl
  have r6 : List.range' 1 6 = [1, 2, 3, 4, 5, 6] := rfl
  have r9 : List.range' 1 9 = [1, 2, 3, 4, 5, 6, 7, 8, 9] := rfl
  have e1 := update_config_at (u 1) (u0 / 1000) 100 0 0 false false
    (w.writes ++ [false])
    (by have := hu 1; omega)
  rw [led_blink_explicit] at e1
  simp only [Nat.reduceMod, Nat.reduceLT, Nat.reduceLeDiff, le_refl, if_true, if_false,
    Bool.not_false, Bool.not_true, Bool.false_eq_true, Nat.reduceAdd, Nat.reducePow,
    Nat.add_assoc, lt_self_iff_false] at e1
  have e2 := update_config_at (u 2) (u0 / 1000 + 100) 100 0 0 true true
    (w.writes ++ [false] ++ [true])
    (by have := hu 2; omega)
  rw [led_blink_explicit] at e2
  simp only [Nat.reduceMod, Nat.reduceLT, Nat.reduceLeDiff, le_refl, if_true, if_false,
    Bool.not_false, Bool.not_true, Bool.false_eq_true, Nat.reduceAdd, Nat.reducePow,
    Nat.add_assoc, lt_self_iff_false] at e2
  have e3 := update_config_at (u 3) (u0 / 1000 + 200) 100 1 0 false false
    (w.writes ++ [false] ++ [true] ++ [false])
    (by have := hu 3; omega)
  rw [led_blink_explicit] at e3
  simp only [Nat.reduceMod, Nat.reduceLT, Nat.reduceLeDiff, le_refl, if_true, if_false,
    Bool.not_false, Bool.not_true, Bool.false_eq_true, Nat.reduceAdd, Nat.reducePow,
    Nat.add_assoc, lt_self_iff_false] at e3
  have e4 := update_config_at (u 4) (u0 / 1000 + 300) 100 1 0 true true
    (w.writes ++ [false] ++ [true] ++ [false] ++ [true])
    (by have := hu 4; omega)
  rw [led_blink_explicit] at e4
  simp only [Nat.reduceMod, Nat.reduceLT, Nat.reduceLeDiff, le_refl, if_true, if_false,
    Bool.not_false, Bool.not_true, Bool.false_eq_true, Nat.reduceAdd, Nat.reducePow,
    Nat.add_assoc, lt_self_iff_false] at e4
  have e5 := update_config_at (u 5) (u0 / 1000 + 400) 100 2 0 false false
    (w.writes ++ [false] ++ [true] ++ [false] ++ [true] ++ [false])
    (by have := hu 5; omega)
  rw [led_blink_explicit] at e5
  simp only [Nat.reduceMod, Nat.reduceLT, Nat.reduceLeDiff, le_refl, if_true, if_false,
    Bool.not_false, Bool.not_true, Bool.false_eq_true, Nat.reduceAdd, Nat.reducePow,
    Nat.add_assoc, lt_self_iff_false] at e5
  have e6 := update_config_at (u 6) (u0 / 1000 + 500) 100 2 0 true true
    (w.writes ++ [false] ++ [true] ++ [false] ++ [true] ++ [false] ++ [true])
    (by have := hu 6; omega)
  rw [led_blink_explicit] at e6
  simp only [Nat.reduceMod, Nat.reduceLT, Nat.reduceLeDiff, le_refl, if_true, if_false,
    Bool.not_false, Bool.not_true, Bool.false_eq_true, Nat.reduceAdd, Nat.reducePow,
    Nat.add_assoc, lt_self_iff_false] at e6
  have e7 := update_config_at (u 7) (u0 / 1000 + 600) 100 3 0 false false
    (w.writes ++ [false] ++ [true] ++ [false] ++ [true] ++ [false] ++ [true] ++ [false])
    (by have := hu 7; omega)
  rw [led_blink_explicit] at e7
  simp only [Nat.reduceMod, Nat.reduceLT, Nat.reduceLeDiff, le_refl, if_true, if_false,
    Bool.not_false, Bool.not_true, Bool.false_eq_true, Nat.reduceAdd, Nat.reducePow,
    Nat.add_assoc, lt_self_iff_false] at e7
  have e8 := update_config_at (u 8) (u0 / 1000 + 600) 200 3 0 false false
    (w.writes ++ [false] ++ [true] ++ [false] ++ [true] ++ [false] ++ [true] ++ [false])
    (by have := hu 8; omega)
  rw [led_blink_explicit] at e8
  simp only [Nat.reduceMod, Nat.reduceLT, Nat.reduceLeDiff, le_refl, if_true, if_false,
    Bool.not_false, Bool.not_true, Bool.false_eq_true, Nat.reduceAdd, Nat.reducePow,
    Nat.add_assoc, lt_self_iff_false] at e8
  have e9 := update_config_at (u 9) (u0 / 1000 + 600) 300 3 0 false false
    (w.writes ++ [false] ++ [true] ++ [false] ++ [true] ++ [false] ++ [true] ++ [false])
    (by have := hu 9; omega)
  rw [led_blink_explicit] at e9
  simp only [Nat.reduceMod, Nat.reduceLT, Nat.reduceLeDiff, le_refl, if_true, if_false,
    Bool.not_false, Bool.not_true, Bool.false_eq_true, Nat.reduceAdd, Nat.reducePow,
    Nat.add_assoc, lt_self_iff_false] at e9
  have e10 := update_config_at (u 10) (u0 / 1000 + 900) 100 0 0 false false
    (w.writes ++ [false] ++ [true] ++ [false] ++ [true] ++ [false] ++ [true] ++ [false] ++ [false])
    (by have := hu 10; omega)
  rw [led_blink_explicit] at e10
  simp only [Nat.reduceMod, Nat.reduceLT, Nat.reduceLeDiff, le_refl, if_true, if_false,
    Bool.not_false, Bool.not_true, Bool.false_eq_true, Nat.reduceAdd, Nat.reducePow,
    Nat.add_assoc, lt_self_iff_false] at e10
  have e11 := update_config_at (u 11) (u0 / 1000 + 1000) 100 0 0 true true
    (w.writes ++ [false] ++ [true] ++ [false] ++ [true] ++ [false] ++ [true] ++ [false] ++ [false] ++ [true])
    (by have := hu 11; omega)
  rw [led_blink_explicit] at e11
  simp only [Nat.reduceMod, Nat.reduceLT, Nat.reduceLeDiff, le_refl, if_true, if_false,
    Bool.not_false, Bool.not_true, Bool.false_eq_true, Nat.reduceAdd, Nat.reducePow,
    Nat.add_assoc, lt_self_iff_false] at e11
  have e12 := update_config_at (u 12) (u0 / 1000 + 1100) 100 1 0 false false
    (w.writes ++ [false] ++ [true] ++ [false] ++ [true] ++ [false] ++ [true] ++ [false] ++ [false] ++ [true] ++ [false])
    (by have := hu 12; omega)
  rw [led_blink_explicit] at e12
  simp only [Nat.reduceMod, Nat.reduceLT, Nat.reduceLeDiff, le_refl, if_true, if_false,
    Bool.not_false, Bool.not_true, Bool.false_eq_true, Nat.reduceAdd, Nat.reducePow,
    Nat.add_assoc, lt_self_iff_false] at e12
  have e13 := update_config_at (u 13) (u0 / 1000 + 1200) 100 1 0 true true
    (w.writes ++ [false] ++ [true] ++ [false] ++ [true] ++ [false] ++ [true] ++ [false] ++ [false] ++ [true] ++ [false] ++ [true])
    (by have := hu 13; omega)
  rw [led_blink_explicit] at e13
  simp only [Nat.reduceMod, Nat.reduceLT, Nat.reduceLeDiff, le_refl, if_true, if_false,
    Bool.not_false, Bool.not_true, Bool.false_eq_true, Nat.reduceAdd, Nat.reducePow,
    Nat.add_assoc, lt_self_iff_false] at e13
  have e14 := update_config_at (u 14) (u0 / 1000 + 1300) 100 2 0 false false
    (w.writes ++ [false] ++ [true] ++ [false] ++ [true] ++ [false] ++ [true] ++ [false] ++ [false] ++ [true] ++ [false] ++ [true] ++ [false])
    (by have := hu 14; omega)
  rw [led_blink_explicit] at e14
  simp only [Nat.reduceMod, Nat.reduceLT, Nat.reduceLeDiff, le_refl, if_true, if_false,
    Bool.not_false, Bool.not_true, Bool.false_eq_true, Nat.reduceAdd, Nat.reducePow,
    Nat.add_assoc, lt_self_iff_false] at e14
  have e15 := update_config_at (u 15) (u0 / 1000 + 1400) 100 2 0 true true
    (w.writes ++ [false] ++ [true] ++ [false] ++ [true] ++ [false] ++ [true] ++ [false] ++ [false] ++ [true] ++ [false] ++ [true] ++ [false] ++ [true])
    (by have := hu 15; omega)
  rw [led_blink_explicit] at e15
  simp only [Nat.reduceMod, Nat.reduceLT, Nat.reduceLeDiff, le_refl, if_true, if_false,
    Bool.not_false, Bool.not_true, Bool.false_eq_true, Nat.reduceAdd, Nat.reducePow,
    Nat.add_assoc, lt_self_iff_false] at e15
  refine ⟨?_, ?_, ?_⟩
  · simp only [r15, ledStates, ledStep, List.map_cons, List.map_nil, e1, e2, e3, e4, e5, e6, e7,
      e8, e9, e10, e11, e12, e13, e14, e15]
  · intro v d hv hd
    simp only [r6, runLed, ledStep, List.foldl_cons, List.foldl_nil, List.map_cons, List.map_nil,
      e1, e2, e3, e4, e5, e6]
    rw [update_config_at v (u0 / 1000 + 600) d 3 0 false false _ hv, led_blink_explicit]
    have hd2 : ¬ 300 ≤ d % 2 ^ 32 := by omega
    simp only [lt_self_iff_false, if_false, hd2]
  · simp only [r9, runLed, ledStep, List.foldl_cons, List.foldl_nil, List.map_cons, List.map_nil,
      e1, e2, e3, e4, e5, e6, e7, e8, e9]

theorem polling_pattern_witness :
    scratchLed.g_led_ctx.current_status ≠ psx_led_status_t.PSX_LED_POLL ∧
    (105000 / 1000 = 5000 / 1000 + 100 ∧ 205999 / 1000 = 5000 / 1000 + 200 ∧
      305000 / 1000 = 5000 / 1000 + 300 ∧ 405000 / 1000 = 5000 / 1000 + 400 ∧
      705000 / 1000 = 5000 / 1000 + 700 ∧ 805000 / 1000 = 5000 / 1000 + 800) ∧
    (ledStates [LedCall.update 105000, LedCall.update 205999, LedCall.update 305000,
        LedCall.update 405000, LedCall.update 705000, LedCall.update 805000]
        (psx_led_set_status 5000 psx_led_status_t.PSX_LED_POLL scratchLed)).map
      (fun x => (x.pin, x.g_led_ctx.flash_count)) =
      [(true, 0), (false, 1), (true, 1), (false, 2), (false, 0), (true, 0)] :=
  ⟨by decide, by decide,
    (polling_pattern scratchLed 5000 105000 205999 305000 405000 705000 805000
      (by decide) (by decide) (by decide) (by decide) (by decide) (by decide) (by decide)).1⟩

theorem config_pattern_witness :
    scratchLed.g_led_ctx.current_status ≠ psx_led_status_t.PSX_LED_CONFIG ∧
    (∀ k : Nat, (5000 + 100000 * k) / 1000 = 5000 / 1000 + 100 * k) ∧
    (runLed ((List.range' 1 9).map (fun k => LedCall.update (5000 + 100000 * k)))
        (psx_led_set_status 5000 psx_led_status_t.PSX_LED_CONFIG scratchLed)).g_led_ctx =
      ⟨5000 / 1000 + 900, psx_led_status_t.PSX_LED_CONFIG, 0, 0, false⟩ :=
  ⟨by decide, fun k => by omega,
    (config_pattern scratchLed 5000 (fun k => 5000 + 100000 * k) (by decide)
      (fun k => by show (5000 + 100000 * k) / 1000 = 5000 / 1000 + 100 * k; omega)).2.2⟩

end PSX
